import Mathlib

set_option maxHeartbeats 1000000

/-!
Verification of the channel-launcher reconciliation logic of
kolibri-app-desktop-xdg-plugin (channel_launchers.py), as a shallow
embedding.  Pure string/parsing helpers mirror the Python built-ins the
code uses (str.strip, str.split, int(...), configparser read/write);
filesystem state is passed explicitly as association lists keyed by file
name; fallible operations return Except.  The raster-image pipeline is
modelled as an opaque deterministic function of the parsed thumbnail,
since no claim here concerns pixel contents.
-/

/-! ### Python string helpers -/

/-- ASCII whitespace, as recognised by Python str.strip(). -/
def isWS (c : Char) : Bool :=
  c = ' ' || c = '\t' || c = '\n' || c = '\r' || c = '\x0b' || c = '\x0c'

def trimLeadC (l : List Char) : List Char := l.dropWhile isWS

/-- Model of Python str.strip() on a character list. -/
def stripChars (l : List Char) : List Char :=
  (trimLeadC (trimLeadC l.reverse).reverse)

def pyStrip (s : String) : String := String.mk (stripChars s.data)

/-- Tail of a Python int literal body: digits, with single underscores
allowed between digits (as int() accepts). -/
def validNumTail : List Char → Bool
  | [] => true
  | '_' :: rest =>
    match rest with
    | c :: r => c.isDigit && validNumTail r
    | [] => false
  | c :: rest => c.isDigit && validNumTail rest

/-- A valid unsigned Python int literal body (nonempty). -/
def validNum : List Char → Bool
  | [] => false
  | c :: rest => c.isDigit && validNumTail rest

def digitsToNat (l : List Char) : Nat :=
  l.foldl (fun acc c => if c = '_' then acc else acc * 10 + (c.toNat - '0'.toNat)) 0

/-- Model of Python int(str): strip whitespace, optional sign, digits. -/
def pyIntChars? (l : List Char) : Option Int :=
  match stripChars l with
  | '+' :: rest => if validNum rest then some (digitsToNat rest) else none
  | '-' :: rest => if validNum rest then some (-(digitsToNat rest : Int)) else none
  | t => if validNum t then some (digitsToNat t) else none

/-- Model of Python str.split(sep) for a one-character separator. -/
def splitCh (sep : Char) : List Char → List (List Char)
  | [] => [[]]
  | c :: rest =>
    if c = sep then [] :: splitCh sep rest
    else
      match splitCh sep rest with
      | [] => [[c]]
      | h :: t => (c :: h) :: t

/-- Python `a or b` for integers (0 is falsy). -/
def pyOrInt (a b : Int) : Int := if a = 0 then b else a

/-- Python `a or b` where a is an optional string (None and "" falsy). -/
def pyOrStr (a : Option String) (b : String) : String :=
  match a with
  | some s => if s = "" then b else s
  | none => b

/-! ### configparser model (the subset the desktop files exercise)

`parseINI` models ConfigParser.read: full-line comments and blank lines
are skipped, `[name]` opens a section (header runs to the last `]`, as
the greedy SECTCRE does), `key=value` / `key: value` lines are split at
the first delimiter with both sides stripped, an empty option name is a
ParsingError, duplicate sections/options are errors (strict mode), and an
option line before any section header is an error.  Continuation lines
are not modelled.  A [DEFAULT] section is parsed like any other and held
apart by the items consumer (items_view below), which merges it under the
requested section and interpolates, as ConfigParser.items does.
`renderINI` models ConfigParser.write with space_around_delimiters=False. -/

def isCommentLine (t : List Char) : Bool :=
  match t with
  | c :: _ => c = '#' || c = ';'
  | [] => false

/-- The prefix of `l` strictly before the last occurrence of `sep`
(none when `sep` does not occur). -/
def dropAfterLast (sep : Char) : List Char → Option (List Char)
  | [] => none
  | c :: rest =>
    match dropAfterLast sep rest with
    | some pre => some (c :: pre)
    | none => if c = sep then some [] else none

def sectionHeaderChars? (t : List Char) : Option (List Char) :=
  match t with
  | c :: rest =>
    if c = '[' then
      match dropAfterLast ']' rest with
      | some inner => if inner = [] then none else some inner
      | none => none
    else none
  | [] => none

/-- Split an option line at its first '=' or ':'. -/
def splitAtFirstDelim : List Char → Option (List Char × List Char)
  | [] => none
  | c :: rest =>
    if c = '=' ∨ c = ':' then some ([], rest)
    else
      match splitAtFirstDelim rest with
      | some (a, b) => some (c :: a, b)
      | none => none

def kvOfLine (t : List Char) : Option (String × String) :=
  match splitAtFirstDelim t with
  | some (k, v) =>
    if k = [] then none
    else some (String.mk (stripChars k), String.mk (stripChars v))
  | none => none

abbrev Items := List (String × String)
abbrev Sections := List (String × Items)

def hasKey (k : String) (items : Items) : Bool := items.any (fun kv => kv.1 = k)

def splitLines : List Char → List (List Char)
  | [] => [[]]
  | c :: rest =>
    if c = '\n' then [] :: splitLines rest
    else
      match splitLines rest with
      | [] => [[c]]
      | h :: t => (c :: h) :: t

def parseLines : List (List Char) → Sections → Option (String × Items) → Option Sections
  | [], done, cur => some (done ++ cur.toList)
  | line :: rest, done, cur =>
    let t := stripChars line
    if t = [] then parseLines rest done cur
    else if isCommentLine t then parseLines rest done cur
    else
      match sectionHeaderChars? t with
      | some name =>
        let nameS := String.mk name
        let done2 := done ++ cur.toList
        if done2.any (fun sec => sec.1 = nameS) then none
        else parseLines rest done2 (some (nameS, []))
      | none =>
        match cur with
        | some (secName, items) =>
          match kvOfLine t with
          | some kv =>
            if hasKey kv.1 items then none
            else parseLines rest done (some (secName, items ++ [kv]))
          | none => none
        | none => none

def parseINI (s : String) : Option Sections := parseLines (splitLines s.data) [] none

def getSection (name : String) : Sections → Option Items
  | [] => none
  | sec :: rest => if sec.1 = name then some sec.2 else getSection name rest

/-- ConfigParser.write's value.replace of a newline by newline+tab
(continuation form), on a character list. -/
def replaceNL : List Char → List Char
  | [] => []
  | c :: r => if c = '\n' then '\n' :: '\t' :: replaceNL r else c :: replaceNL r

def renderKV (kv : String × String) : String :=
  kv.1 ++ "=" ++ String.mk (replaceNL kv.2.data) ++ "\n"

def renderLines : Items → String
  | [] => ""
  | kv :: rest => renderKV kv ++ renderLines rest

def renderINI (sec : String) (kvs : Items) : String :=
  "[" ++ sec ++ "]\n" ++ renderLines kvs ++ "\n"

/-! ### Association-list filesystem helpers -/

def setKV {α : Type} (k : String) (v : α) : List (String × α) → List (String × α)
  | [] => [(k, v)]
  | kv :: rest => if kv.1 = k then (k, v) :: rest else kv :: setKV k v rest

def removeFirst {α : Type} (k : String) : List (String × α) → List (String × α)
  | [] => []
  | kv :: rest => if kv.1 = k then rest else kv :: removeFirst k rest

def hasK {α : Type} (k : String) (l : List (String × α)) : Bool :=
  l.any (fun kv => kv.1 = k)

def getK {α : Type} (k : String) : List (String × α) → Option α
  | [] => none
  | kv :: rest => if kv.1 = k then some kv.2 else getK k rest

/-! ### ConfigParser BasicInterpolation

ConfigParser() (as both write_desktop_file and load_all construct it)
carries BasicInterpolation.  On set(), before_set validates the value:
with escaped "%%" pairs removed and every KEYCRE reference %([^)]+)s
removed, no '%' may remain, else ValueError.  On items(section),
before_get interpolates each value of the defaults-merged section dict:
"%%" yields '%', %(key)s is looked up in that dict and (when the value
contains '%') interpolated recursively up to MAX_INTERPOLATION_DEPTH,
a missing key or any other '%' raises, as does exceeding the depth. -/

/-- value.replace("%%", ""): left-to-right non-overlapping removal. -/
def dropDoublePercent : List Char → List Char
  | [] => []
  | [c] => [c]
  | c :: c2 :: r =>
    if c = '%' ∧ c2 = '%' then dropDoublePercent r
    else c :: dropDoublePercent (c2 :: r)

/-- A KEYCRE match %([^)]+)s at the head of the list: the tail after it.
The class [^)]+ is greedy and cannot cross ')', so the match is exactly
the maximal nonempty ')'-free run followed by ")s". -/
def keyCreRefTail : List Char → Option (List Char)
  | c1 :: c2 :: r =>
    if c1 = '%' ∧ c2 = '(' then
      if (r.takeWhile fun c => !(c = ')')).isEmpty then none
      else
        match r.dropWhile fun c => !(c = ')') with
        | ')' :: 's' :: rest => some rest
        | _ => none
    else none
  | _ => none

/-- KEYCRE.sub("", s): leftmost non-overlapping removal; positions with no
match emit their character and scanning resumes one character later.  The
fuel argument (instantiated with the length) only bounds the recursion. -/
def keyCreSubF : Nat → List Char → List Char
  | 0, l => l
  | _ + 1, [] => []
  | fuel + 1, c :: r =>
    match keyCreRefTail (c :: r) with
    | some rest => keyCreSubF fuel rest
    | none => c :: keyCreSubF fuel r

def keyCreSub (l : List Char) : List Char := keyCreSubF l.length l

/-- BasicInterpolation.before_set: accept the value iff no '%' survives
removing escaped pairs and well-formed references. -/
def before_set_ok (v : String) : Bool :=
  !((keyCreSub (dropDoublePercent v.data)).any fun c => c = '%')

def set_values_ok (pairs : List (String × String)) : Bool :=
  pairs.all fun kv => before_set_ok kv.2

/-- One scan of BasicInterpolation._interpolate_some at a fixed depth:
`recur` interpolates a referenced value one level deeper.  The Option
state accumulates (reversed) the name inside a %(...)s reference. -/
def interpChars (map : List (String × String))
    (recur : List Char → Except String (List Char)) :
    Option (List Char) → List Char → Except String (List Char)
  | none, [] => Except.ok []
  | none, c :: r =>
    if c = '%' then
      match r with
      | [] => Except.error "InterpolationSyntaxError"
      | c2 :: r2 =>
        if c2 = '%' then (interpChars map recur none r2).map fun t => '%' :: t
        else if c2 = '(' then interpChars map recur (some []) r2
        else Except.error "InterpolationSyntaxError"
    else (interpChars map recur none r).map fun t => c :: t
  | some _, [] => Except.error "InterpolationSyntaxError"
  | some acc, c :: r =>
    if c = ')' then
      if acc.isEmpty then Except.error "InterpolationSyntaxError"
      else
        match r with
        | [] => Except.error "InterpolationSyntaxError"
        | c2 :: r2 =>
          if c2 = 's' then
            match getK (String.mk acc.reverse) map with
            | none => Except.error "InterpolationMissingOptionError"
            | some v =>
              if v.data.any (fun ch => ch = '%') then do
                let tv ← recur v.data
                let tt ← interpChars map recur none r2
                Except.ok (tv ++ tt)
              else (interpChars map recur none r2).map fun t => v.data ++ t
          else Except.error "InterpolationSyntaxError"
    else interpChars map recur (some (c :: acc)) r

def MAX_INTERPOLATION_DEPTH : Nat := 10

/-- _interpolate_some with `rem` levels of recursion remaining: entering a
level with none left is the depth error. -/
def interpDepth (map : List (String × String)) : Nat → List Char → Except String (List Char)
  | 0, _ => Except.error "InterpolationDepthError"
  | rem + 1, l => interpChars map (interpDepth map rem) none l

/-- BasicInterpolation.before_get of one raw value over the merged map. -/
def before_get (map : List (String × String)) (v : String) : Except String String :=
  (interpDepth map MAX_INTERPOLATION_DEPTH v.data).map String.mk

/-- defaults.copy() followed by .update(section): dict-update semantics. -/
def mergeDict (defaults sect : List (String × String)) : List (String × String) :=
  sect.foldl (fun d kv => setKV kv.1 kv.2 d) defaults

/-- The [(option, value_getter(option)) for option in d] comprehension:
interpolate every value over the merged map, in order, first error wins. -/
def interpAll (map : List (String × String)) :
    List (String × String) → Except String (List (String × String))
  | [] => Except.ok []
  | kv :: rest => do
    let t ← before_get map kv.2
    let r ← interpAll map rest
    Except.ok ((kv.1, t) :: r)

/-- ConfigParser.items(section): the DEFAULT-merged dict with every value
interpolated. -/
def items_view (defaults sect : List (String × String)) :
    Except String (List (String × String)) :=
  interpAll (mergeDict defaults sect) (mergeDict defaults sect)

/-! ### Data model (channel_launchers.py constants and records) -/

def LAUNCHER_CATEGORIES : List String := ["Education", "X-Kolibri-Channel"]

def LAUNCHER_PREFIX : String := "org.learningequality.Kolibri.Channel."

/-- ChannelLauncher_FromDatabase.FORMAT_VERSION. -/
def FORMAT_VERSION : Nat := 5

/-- One ChannelMetadata row as the plugin reads it (id, version, name,
tagline, thumbnail, plus the root__available filter flag). -/
structure ChannelMetadataRec where
  id : String
  version : String
  name : String
  tagline : Option String
  thumbnail : String
  rootAvailable : Bool
deriving DecidableEq

/-- ChannelLauncher_FromDatabase.channel_version: "{version}~{FORMAT_VERSION}". -/
def channel_version_db (m : ChannelMetadataRec) : String :=
  m.version ++ "~" ++ toString FORMAT_VERSION

/-- ChannelLauncher.desktop_file_name: prefix + channel + ".desktop". -/
def desktop_file_name (cid : String) : String := LAUNCHER_PREFIX ++ cid ++ ".desktop"

/-- The icon name used by write_channel_icon / delete_channel_icon. -/
def icon_base_name (cid : String) : String := LAUNCHER_PREFIX ++ cid

/-! ### ChannelIcon: DATA_URI_PATTERN and construction -/

/-- Python regex \w on ASCII input. -/
def isWordChar (c : Char) : Bool := c.isAlphanum || c = '_'

/-- The character class of DATA_URI_PATTERN's mimetype group: [\w\/\+-]. -/
def isMimeChar (c : Char) : Bool := isWordChar c || c = '/' || c = '+' || c = '-'

structure DataURIMatch where
  mimetype : String
  data_b64 : String
deriving DecidableEq

/-- DATA_URI_PATTERN.match: "^(data:)(?P<mimetype>[\w\/\+-]*)(;base64),(?P<data_b64>.*)".
The mimetype class excludes ';', so the greedy run is forced maximal, and
'.' stops at a newline. -/
def dataURIMatch (s : String) : Option DataURIMatch :=
  match s.data with
  | 'd' :: 'a' :: 't' :: 'a' :: ':' :: rest =>
    let mime := rest.takeWhile isMimeChar
    match rest.dropWhile isMimeChar with
    | ';' :: 'b' :: 'a' :: 's' :: 'e' :: '6' :: '4' :: ',' :: payload =>
      some ⟨String.mk mime, String.mk (payload.takeWhile (fun c => c ≠ '\n'))⟩
    | _ => none
  | _ => none

/-- ChannelIcon.__init__: raises ValueError ("Invalid data URI") when the
thumbnail does not match DATA_URI_PATTERN. -/
def ChannelIconInit (thumbnail : String) : Except String DataURIMatch :=
  match dataURIMatch thumbnail with
  | some m => Except.ok m
  | none => Except.error "ValueError: Invalid data URI"

/-- ChannelLauncher_FromDatabase.__channel_icon: ChannelIcon(...) with
ValueError caught as None. -/
def channel_icon (thumbnail : String) : Option DataURIMatch :=
  match ChannelIconInit thumbnail with
  | Except.ok m => some m
  | Except.error _ => none

/-- ChannelIcon.file_extension. -/
def ChannelIcon_file_extension : String := ".png"

/-! ### Filesystem state -/

/-- The filesystem slice the plugin touches: the applications directory
(file name ↦ file text) and the 256x256/apps icon directory (file name ↦
icon bytes, modelled as the parsed thumbnail the deterministic synthesis
pipeline consumed). -/
structure FS where
  entries : List (String × String)
  icons : List (String × DataURIMatch)
deriving DecidableEq

/-! ### Launchers and version comparison -/

/-- ChannelLauncher_FromDisk: the file it was read from and the parsed
"Desktop Entry" items. -/
structure DiskLauncher where
  path : String
  data : Items
deriving DecidableEq

def DiskLauncher.channel_id (d : DiskLauncher) : Option String :=
  getK "X-Kolibri-Channel-Id" d.data

def DiskLauncher.channel_version (d : DiskLauncher) : Option String :=
  getK "X-Kolibri-Channel-Version" d.data

/-- The identity/version view shared by both launcher variants
(ChannelLauncher.channel_id / channel_version; None when absent). -/
structure LView where
  cid : Option String
  cver : Option String
deriving DecidableEq

def dbView (m : ChannelMetadataRec) : LView := ⟨some m.id, some (channel_version_db m)⟩

def diskView (d : DiskLauncher) : LView := ⟨d.channel_id, d.channel_version⟩

/-- map(int, version.split("~")) unpacked into exactly two components;
any other shape raises ValueError. -/
def parseVersion (s : String) : Except String (Int × Int) :=
  match (splitCh '~' s.data).map pyIntChars? with
  | [some a, some b] => Except.ok (a, b)
  | _ => Except.error "ValueError: invalid channel version"

/-- channel_version.split on a missing (None) version raises AttributeError. -/
def parseVersionOpt : Option String → Except String (Int × Int)
  | none => Except.error "AttributeError: NoneType has no attribute split"
  | some s => parseVersion s

/-- ChannelLauncher.is_same_channel: equality on channel_id (Python ==
on str/None, so None equals None). -/
def is_same_channel (a b : LView) : Bool := a.cid = b.cid

/-- ChannelLauncher.compare: None for different channels; otherwise parse
both versions (raising on failure) and return
(selfChannel - otherChannel) or (selfFormat - otherFormat). -/
def ChannelLauncher.compare (a b : LView) : Except String (Option Int) :=
  if is_same_channel a b then do
    let p ← parseVersionOpt a.cver
    let q ← parseVersionOpt b.cver
    Except.ok (some (pyOrInt (p.1 - q.1) (p.2 - q.2)))
  else Except.ok none

/-- Python truthiness of compare's result: None and 0 are falsy. -/
def pyTruthy : Option Int → Bool
  | none => false
  | some n => n ≠ 0

/-- any(map(launcher.compare, launchers_from_disk)): short-circuits at the
first truthy comparison, propagating exceptions. -/
def anyCompare (a : LView) : List LView → Except String Bool
  | [] => Except.ok false
  | b :: rest => do
    let r ← ChannelLauncher.compare a b
    if pyTruthy r then Except.ok true else anyCompare a rest

/-! ### Writing (save) and deleting -/

inductive LogEvent
  | iconWriteError (channelId : String) (msg : String)
  | entryWriteError (channelId : String) (msg : String)
deriving DecidableEq

/-- The key/value pairs write_desktop_file sets, in order; Icon only when
icon_name is truthy. -/
def desktopEntryPairs (m : ChannelMetadataRec) (iconName : Option String) : Items :=
  [("Version", "1.0"),
   ("Type", "Application"),
   ("Name", m.name),
   ("Comment", pyOrStr m.tagline ""),
   ("Exec", "flatpak run org.learningequality.Kolibri --channel-id " ++ m.id),
   ("X-Endless-LaunchMaximized", "True"),
   ("X-Kolibri-Channel-Id", m.id),
   ("X-Kolibri-Channel-Version", channel_version_db m),
   ("Categories", String.intercalate ";" LAUNCHER_CATEGORIES ++ ";")] ++
  (match iconName with
   | some n => if n = "" then [] else [("Icon", n)]
   | none => [])

/-- The text write_desktop_file produces for a launcher. -/
def renderEntry (m : ChannelMetadataRec) (iconName : Option String) : String :=
  renderINI "Desktop Entry" (desktopEntryPairs m iconName)

/-- ChannelLauncher_FromDatabase.write_desktop_file: every set() call runs
the value through BasicInterpolation.before_set, so a value with a bare
'%' raises ValueError before the file is opened; only after all sets
succeed is the file written (entryFail injects an I/O failure of that
open/write). -/
def write_desktop_file (m : ChannelMetadataRec) (iconName : Option String)
    (entryFail : Option String) (fs : FS) : Except String FS :=
  if set_values_ok (desktopEntryPairs m iconName) then
    match entryFail with
    | some e => Except.error e
    | none =>
      Except.ok
        { fs with
          entries := setKV (desktop_file_name m.id) (renderEntry m iconName) fs.entries }
  else Except.error "ValueError: invalid interpolation syntax"

/-- ChannelLauncher_FromDatabase.write_channel_icon: no icon → return None
without writing; otherwise write prefix+id+.png and return prefix+id.
iconFail injects an I/O failure of the underlying open/write. -/
def write_channel_icon (m : ChannelMetadataRec) (iconFail : Option String) (fs : FS) :
    Except String (FS × Option String) :=
  match channel_icon m.thumbnail with
  | none => Except.ok (fs, none)
  | some icon =>
    match iconFail with
    | some e => Except.error e
    | none =>
      Except.ok
        ({ fs with
           icons := setKV (icon_base_name m.id ++ ChannelIcon_file_extension) icon fs.icons },
         some (icon_base_name m.id))

/-- ChannelLauncher.save: both writes wrapped in try/except, icon failure
demoting icon_name to None, entry failure swallowed; each failure logged. -/
def ChannelLauncher.save (m : ChannelMetadataRec) (iconFail entryFail : Option String)
    (fs : FS) : FS × List LogEvent :=
  match write_channel_icon m iconFail fs with
  | Except.ok (fs1, iconName) =>
    match write_desktop_file m iconName entryFail fs1 with
    | Except.ok fs2 => (fs2, [])
    | Except.error e => (fs1, [LogEvent.entryWriteError m.id e])
  | Except.error e =>
    match write_desktop_file m none entryFail fs with
    | Except.ok fs2 => (fs2, [LogEvent.iconWriteError m.id e])
    | Except.error e2 =>
      (fs, [LogEvent.iconWriteError m.id e, LogEvent.entryWriteError m.id e2])

/-- Python str() of an optional string (None renders as "None"), used by
delete_channel_icon's crude path guess. -/
def pyStrOpt : Option String → String
  | some s => s
  | none => "None"

/-- ChannelLauncher.delete_desktop_file: os.remove, raising when absent. -/
def delete_desktop_file (d : DiskLauncher) (fs : FS) : Except String FS :=
  if hasK d.path fs.entries then
    Except.ok { fs with entries := removeFirst d.path fs.entries }
  else Except.error "FileNotFoundError"

/-- ChannelLauncher_FromDisk.delete_channel_icon: guessed icon path,
removed best-effort only when the file exists. -/
def delete_channel_icon (d : DiskLauncher) (fs : FS) : FS :=
  let iconFile := icon_base_name (pyStrOpt d.channel_id) ++ ".png"
  if hasK iconFile fs.icons then { fs with icons := removeFirst iconFile fs.icons } else fs

/-- ChannelLauncher.delete: desktop file first, then icon. -/
def ChannelLauncher.delete (d : DiskLauncher) (fs : FS) : Except String FS := do
  let fs1 ← delete_desktop_file d fs
  Except.ok (delete_channel_icon d fs1)

/-! ### Loading and the reconciliation pass -/

/-- One applications-directory file in load_all: ConfigParser.read (a
parse error raises), has_section("Desktop Entry") (a [DEFAULT] section is
held apart as the defaults), then dict(config.items(section)) — the
DEFAULT-merged, interpolated items (an interpolation error raises); a
file without the section yields nothing. -/
def loadFile (f : String × String) : Except String (Option DiskLauncher) :=
  match parseINI f.2 with
  | none => Except.error "configparser.ParsingError"
  | some secs =>
    match getSection "Desktop Entry" secs with
    | none => Except.ok none
    | some sect =>
      match items_view ((getSection "DEFAULT" secs).getD []) sect with
      | Except.error e => Except.error e
      | Except.ok its => Except.ok (some (DiskLauncher.mk f.1 its))

/-- The launcher one file yields when its loadFile succeeds (none on
either failure or a missing section). -/
def mkDiskLauncher (f : String × String) : Option DiskLauncher :=
  match loadFile f with
  | Except.ok (some d) => some d
  | _ => none

/-- ChannelLauncher_FromDisk.load_all: one launcher per file whose entry
format parses and that has a "Desktop Entry" section; a parse or
interpolation error aborts the whole enumeration. -/
def load_all_from_disk : List (String × String) → Except String (List DiskLauncher)
  | [] => Except.ok []
  | f :: rest =>
    match loadFile f with
    | Except.error e => Except.error e
    | Except.ok none => load_all_from_disk rest
    | Except.ok (some d) => (load_all_from_disk rest).map fun ls => d :: ls

inductive PassAction
  | deleted (d : DiskLauncher)
  | created (m : ChannelMetadataRec)
  | updated (m : ChannelMetadataRec)
deriving DecidableEq

/-- update_channel_launchers' first loop: delete every disk launcher with
no same-channel launcher in the database list. -/
def phase_delete (dbL : List ChannelMetadataRec) :
    List DiskLauncher → FS → Except String (FS × List PassAction × Bool)
  | [], fs => Except.ok (fs, [], false)
  | d :: rest, fs =>
    if dbL.any (fun s => is_same_channel (diskView d) (dbView s)) then
      phase_delete dbL rest fs
    else do
      let fs1 ← ChannelLauncher.delete d fs
      let r ← phase_delete dbL rest fs1
      Except.ok (r.1, PassAction.deleted d :: r.2.1, true)

/-- update_channel_launchers' second loop: create database launchers with
no disk match; otherwise save when force is true (short-circuiting the
comparison) or when any comparison against the disk list is truthy. -/
def phase_save (disk : List DiskLauncher) (force : Bool) :
    List ChannelMetadataRec → FS → Except String (FS × List PassAction × Bool)
  | [], fs => Except.ok (fs, [], false)
  | s :: rest, fs =>
    if disk.any (fun d => is_same_channel (dbView s) (diskView d)) then
      if force then do
        let r ← phase_save disk force rest (ChannelLauncher.save s none none fs).1
        Except.ok (r.1, PassAction.updated s :: r.2.1, true)
      else do
        let b ← anyCompare (dbView s) (disk.map diskView)
        if b then do
          let r ← phase_save disk force rest (ChannelLauncher.save s none none fs).1
          Except.ok (r.1, PassAction.updated s :: r.2.1, true)
        else phase_save disk force rest fs
    else do
      let r ← phase_save disk force rest (ChannelLauncher.save s none none fs).1
      Except.ok (r.1, PassAction.created s :: r.2.1, true)

/-- The observable outcome of one update_channel_launchers call: final
filesystem, the delete/create/update trace (in execution order), the
did_icons_change flag, whether the icon-cache refresh block ran (gated on
that flag), and the Python return value — the function body has no return
statement, so this is always none. -/
structure PassResult where
  fs : FS
  actions : List PassAction
  did_icons_change : Bool
  icon_cache_refreshed : Bool
  ret : Option Bool
deriving DecidableEq

/-- update_channel_launchers(force): load both collections, delete
unmatched disk launchers, save new/changed database launchers, refresh
the icon cache iff anything changed. -/
def update_channel_launchers (force : Bool) (db : List ChannelMetadataRec) (fs0 : FS) :
    Except String PassResult := do
  let dbL := db.filter (fun m => m.rootAvailable)
  let disk ← load_all_from_disk fs0.entries
  let r1 ← phase_delete dbL disk fs0
  let r2 ← phase_save disk force dbL r1.1
  let changed := r1.2.2 || r2.2.2
  Except.ok ⟨r2.1, r1.2.1 ++ r2.2.1, changed, changed, none⟩

/-! ### Derived predicates used to state reconciliation properties -/

/-- The first loop's keep-condition: the disk launcher has a same-channel
launcher in the database list. -/
def launcherMatchesDb (dbL : List ChannelMetadataRec) (d : DiskLauncher) : Bool :=
  dbL.any fun s => is_same_channel (diskView d) (dbView s)

/-- The second loop's match-condition: the database launcher has a
same-channel launcher on disk. -/
def dbHasMatch (disk : List DiskLauncher) (s : ChannelMetadataRec) : Bool :=
  disk.any fun d => is_same_channel (dbView s) (diskView d)

/-- A matched pair whose versions both parse and differ: the condition
under which one comparison in the update check is truthy. -/
def needsUpdateB (s : ChannelMetadataRec) (d : DiskLauncher) : Bool :=
  is_same_channel (dbView s) (diskView d) &&
    match parseVersion (channel_version_db s), parseVersionOpt d.channel_version with
    | Except.ok p, Except.ok q => decide (pyOrInt (p.1 - q.1) (p.2 - q.2) ≠ 0)
    | _, _ => false

/-- The fate of one database launcher in the save loop: some true when it
is saved, some false when it is skipped, none when the comparison raises. -/
def saveDecision (disk : List DiskLauncher) (force : Bool) (s : ChannelMetadataRec) :
    Option Bool :=
  if dbHasMatch disk s then
    if force then some true
    else
      match anyCompare (dbView s) (disk.map diskView) with
      | Except.ok b => some b
      | Except.error _ => none
  else some true

/-- The icon name save passes to write_desktop_file when no write fails. -/
def icnOf (s : ChannelMetadataRec) : Option String :=
  (channel_icon s.thumbnail).map fun _ => icon_base_name s.id

/-- All of a launcher's entry values pass set()'s interpolation
validation, so its entry file is actually written. -/
def entryOk (s : ChannelMetadataRec) : Bool :=
  set_values_ok (desktopEntryPairs s (icnOf s))

/-- Right-strip only (what remains of the value after the whole line is
stripped). -/
def trailStrip (l : List Char) : List Char := (trimLeadC l.reverse).reverse

/-- A well-behaved option key: nonempty, no surrounding whitespace, not a
comment or section opener, and delimiter-free. -/
def cleanKeyB (k : String) : Bool :=
  match k.data with
  | [] => false
  | c :: _ =>
    !(c = '[') && !(c = '#' || c = ';') &&
      decide (trimLeadC k.data = k.data) && decide (stripChars k.data = k.data) &&
      k.data.all (fun ch => !(ch = '=' ∨ ch = ':'))

/-! ### Association-list lemmas -/

theorem getK_setKV_self {α : Type} (k : String) (v : α) (l : List (String × α)) :
    getK k (setKV k v l) = some v := by
  induction l with
  | nil => simp [setKV, getK]
  | cons kv rest ih =>
    by_cases h : kv.1 = k
    · simp [setKV, h, getK]
    · simp [setKV, h, getK, ih]

theorem getK_setKV_ne {α : Type} {k k' : String} (h : k ≠ k') (v : α)
    (l : List (String × α)) : getK k (setKV k' v l) = getK k l := by
  induction l with
  | nil => simp [setKV, getK, Ne.symm h]
  | cons kv rest ih =>
    by_cases hk : kv.1 = k'
    · simp [setKV, hk, getK, Ne.symm h, hk ▸ (Ne.symm h)]
    · simp [setKV, hk, getK, ih]

theorem getK_mem {α : Type} {k : String} {v : α} {l : List (String × α)}
    (h : getK k l = some v) : (k, v) ∈ l := by
  induction l with
  | nil => simp [getK] at h
  | cons kv rest ih =>
    obtain ⟨k1, v1⟩ := kv
    by_cases hk : k1 = k
    · subst hk
      rw [getK, if_pos rfl, Option.some.injEq] at h
      subst h
      exact List.mem_cons_self _ _
    · rw [getK, if_neg hk] at h
      exact List.mem_cons_of_mem _ (ih h)

theorem mem_setKV {α : Type} {f : String × α} {k : String} {v : α}
    {l : List (String × α)} (h : f ∈ setKV k v l) : f = (k, v) ∨ f ∈ l := by
  induction l with
  | nil => simpa [setKV] using h
  | cons kv rest ih =>
    by_cases hk : kv.1 = k
    · simp [setKV, hk] at h
      rcases h with h | h
      · exact Or.inl h
      · exact Or.inr (List.mem_cons_of_mem _ h)
    · simp [setKV, hk] at h
      rcases h with h | h
      · exact Or.inr (by simp [h])
      · rcases ih h with h' | h'
        · exact Or.inl h'
        · exact Or.inr (List.mem_cons_of_mem _ h')

theorem keys_setKV {α : Type} (k : String) (v : α) (l : List (String × α)) :
    (setKV k v l).map Prod.fst =
      if k ∈ l.map Prod.fst then l.map Prod.fst else l.map Prod.fst ++ [k] := by
  induction l with
  | nil => simp [setKV]
  | cons kv rest ih =>
    by_cases hk : kv.1 = k
    · simp [setKV, hk]
    · by_cases hm : k ∈ rest.map Prod.fst
      · simp [setKV, hk, ih, hm, Ne.symm hk]
      · simp [setKV, hk, ih, hm, Ne.symm hk]

theorem nodup_keys_setKV {α : Type} {k : String} {v : α} {l : List (String × α)}
    (h : (l.map Prod.fst).Nodup) : ((setKV k v l).map Prod.fst).Nodup := by
  rw [keys_setKV]
  by_cases hm : k ∈ l.map Prod.fst
  · simpa [hm] using h
  · simp only [hm, if_false]
    exact List.Nodup.append h (List.nodup_singleton k) (by simpa using hm)

theorem mem_setKV_of_nodup {α : Type} {f : String × α} {k : String} {v : α}
    {l : List (String × α)} (hnd : (l.map Prod.fst).Nodup)
    (h : f ∈ setKV k v l) : f = (k, v) ∨ (f ∈ l ∧ f.1 ≠ k) := by
  induction l with
  | nil => simpa [setKV] using h
  | cons kv rest ih =>
    rw [List.map_cons, List.nodup_cons] at hnd
    by_cases hk : kv.1 = k
    · rw [setKV, if_pos hk] at h
      rcases List.mem_cons.mp h with h | h
      · exact Or.inl h
      · refine Or.inr ⟨List.mem_cons_of_mem _ h, fun hf => ?_⟩
        have h1 : f.1 ∈ rest.map Prod.fst := List.mem_map_of_mem Prod.fst h
        rw [hf, ← hk] at h1
        exact hnd.1 h1
    · rw [setKV, if_neg hk] at h
      rcases List.mem_cons.mp h with h | h
      · subst h
        exact Or.inr ⟨List.mem_cons_self _ _, hk⟩
      · rcases ih hnd.2 h with h' | h'
        · exact Or.inl h'
        · exact Or.inr ⟨List.mem_cons_of_mem _ h'.1, h'.2⟩

theorem hasK_iff {α : Type} {k : String} {l : List (String × α)} :
    hasK k l = true ↔ k ∈ l.map Prod.fst := by
  rw [hasK, List.any_eq_true]
  constructor
  · rintro ⟨kv, hm, he⟩
    exact (decide_eq_true_eq.mp he) ▸ List.mem_map_of_mem Prod.fst hm
  · intro hm
    rcases List.mem_map.mp hm with ⟨kv, hkv, he⟩
    exact ⟨kv, hkv, by simp [he]⟩

theorem removeFirst_eq_filter {α : Type} {k : String} {l : List (String × α)}
    (hnd : (l.map Prod.fst).Nodup) :
    removeFirst k l = l.filter (fun f => f.1 ≠ k) := by
  induction l with
  | nil => simp [removeFirst]
  | cons kv rest ih =>
    rw [List.map_cons, List.nodup_cons] at hnd
    by_cases hk : kv.1 = k
    · rw [removeFirst, if_pos hk, List.filter_cons_of_neg (by simp [hk])]
      symm
      apply List.filter_eq_self.2
      intro f hf
      simp only [ne_eq, decide_eq_true_eq]
      intro hfk
      have h1 : f.1 ∈ rest.map Prod.fst := List.mem_map_of_mem Prod.fst hf
      rw [hfk, ← hk] at h1
      exact hnd.1 h1
    · rw [removeFirst, if_neg hk, List.filter_cons_of_pos (by simp [hk]), ih hnd.2]

/-! ### Interpolation on percent-free values -/

theorem mem_stripChars {c : Char} {l : List Char} (h : c ∈ stripChars l) : c ∈ l := by
  rw [stripChars, trimLeadC, trimLeadC] at h
  have h1 : c ∈ (l.reverse.dropWhile isWS).reverse := (List.dropWhile_sublist _).subset h
  rw [List.mem_reverse] at h1
  have h2 : c ∈ l.reverse := (List.dropWhile_sublist _).subset h1
  rwa [List.mem_reverse] at h2

theorem dropDoublePercent_id {l : List Char} (h : '%' ∉ l) : dropDoublePercent l = l := by
  induction l with
  | nil => rfl
  | cons c r ih =>
    cases r with
    | nil => rfl
    | cons c2 r2 =>
      have hc : ¬(c = '%' ∧ c2 = '%') := by
        rintro ⟨h1, _⟩
        exact h (h1 ▸ List.mem_cons_self _ _)
      rw [dropDoublePercent, if_neg hc, ih fun hm => h (List.mem_cons_of_mem _ hm)]

theorem keyCreRefTail_of_head_ne {c : Char} (hc : c ≠ '%') (r : List Char) :
    keyCreRefTail (c :: r) = none := by
  cases r with
  | nil => rfl
  | cons c2 r2 =>
    rw [keyCreRefTail, if_neg fun hand => hc hand.1]

theorem keyCreSubF_id {l : List Char} (h : '%' ∉ l) : ∀ n, keyCreSubF n l = l := by
  induction l with
  | nil =>
    intro n
    cases n with
    | zero => rfl
    | succ n => rfl
  | cons c r ih =>
    intro n
    cases n with
    | zero => rfl
    | succ n =>
      have hc : c ≠ '%' := fun hh => h (hh ▸ List.mem_cons_self _ _)
      rw [keyCreSubF, keyCreRefTail_of_head_ne hc]
      show c :: keyCreSubF n r = c :: r
      rw [ih (fun hm => h (List.mem_cons_of_mem _ hm)) n]

theorem before_set_ok_of_no_pct {v : String} (h : '%' ∉ v.data) :
    before_set_ok v = true := by
  rw [before_set_ok, keyCreSub, dropDoublePercent_id h, keyCreSubF_id h]
  have hz : (v.data.any fun c => c = '%') = false := by
    rw [List.any_eq_false]
    intro c hc
    simp only [decide_eq_true_eq]
    intro hcc
    exact h (hcc ▸ hc)
  rw [hz]
  rfl

theorem interpChars_id (map : Items) (recur : List Char → Except String (List Char))
    {l : List Char} (h : '%' ∉ l) : interpChars map recur none l = Except.ok l := by
  induction l with
  | nil => rfl
  | cons c r ih =>
    have hc : c ≠ '%' := fun hh => h (hh ▸ List.mem_cons_self _ _)
    rw [interpChars.eq_def]
    simp only []
    rw [if_neg hc, ih fun hm => h (List.mem_cons_of_mem _ hm)]
    rfl

theorem before_get_id (map : Items) {v : String} (h : '%' ∉ v.data) :
    before_get map v = Except.ok v := by
  have h1 : interpDepth map MAX_INTERPOLATION_DEPTH v.data = Except.ok v.data := by
    show interpChars map (interpDepth map 9) none v.data = Except.ok v.data
    exact interpChars_id map _ h
  rw [before_get, h1]
  rfl

theorem interpAll_id (map : Items) {items : Items}
    (h : ∀ kv ∈ items, '%' ∉ kv.2.data) : interpAll map items = Except.ok items := by
  induction items with
  | nil => rfl
  | cons kv rest ih =>
    rw [interpAll, before_get_id map (h kv (List.mem_cons_self _ _)),
      ih fun kv' h' => h kv' (List.mem_cons_of_mem _ h')]
    rfl

theorem setKV_append_of_not_mem {α : Type} {k : String} (v : α)
    {l : List (String × α)} (h : k ∉ l.map Prod.fst) :
    setKV k v l = l ++ [(k, v)] := by
  induction l with
  | nil => rfl
  | cons kv rest ih =>
    rw [List.map_cons] at h
    have hk : kv.1 ≠ k := fun hh => h (hh ▸ List.mem_cons_self _ _)
    rw [setKV, if_neg hk, ih fun hm => h (List.mem_cons_of_mem _ hm)]
    rfl

theorem mergeDict_of_nodup : ∀ (sect pre : Items),
    ((pre.map Prod.fst ++ sect.map Prod.fst).Nodup) →
    mergeDict pre sect = pre ++ sect := by
  intro sect
  induction sect with
  | nil =>
    intro pre _
    rw [mergeDict, List.foldl_nil, List.append_nil]
  | cons kv rest ih =>
    intro pre hnd
    rw [mergeDict, List.foldl_cons]
    have hnotin : kv.1 ∉ pre.map Prod.fst := by
      intro hm
      rw [List.map_cons] at hnd
      exact (List.nodup_append.mp hnd).2.2 hm (List.mem_cons_self _ _)
    rw [setKV_append_of_not_mem kv.2 hnotin]
    have := ih (pre ++ [kv]) (by
      rw [List.map_cons] at hnd
      rw [List.map_append]
      simpa [List.append_assoc] using hnd)
    rw [mergeDict] at this
    rw [show (kv.1, kv.2) = kv from rfl, this, List.append_assoc]
    rfl

theorem items_view_id {sect : Items} (hnd : (sect.map Prod.fst).Nodup)
    (h : ∀ kv ∈ sect, '%' ∉ kv.2.data) : items_view [] sect = Except.ok sect := by
  rw [items_view, mergeDict_of_nodup sect [] (by simpa using hnd)]
  exact interpAll_id sect h

theorem loadFile_single_section (p : String) (content : String) (its : Items)
    (hp : parseINI content = some [("Desktop Entry", its)])
    (hnd : (its.map Prod.fst).Nodup)
    (hpc : ∀ kv ∈ its, '%' ∉ kv.2.data) :
    loadFile (p, content) = Except.ok (some ⟨p, its⟩) := by
  have hp2 : parseINI (p, content).2 = some [("Desktop Entry", its)] := hp
  rw [loadFile, hp2]
  have hg : getSection "Desktop Entry" [("Desktop Entry", its)] = some its := by
    rw [getSection, if_pos rfl]
  have hgd : getSection "DEFAULT" [("Desktop Entry", its)] = none := by
    rw [getSection, if_neg (fun hcc : ("Desktop Entry", its).1 = "DEFAULT" => by simp at hcc)]
    rfl
  show (match getSection "Desktop Entry" [("Desktop Entry", its)] with
    | none => Except.ok none
    | some sect =>
      match items_view ((getSection "DEFAULT" [("Desktop Entry", its)]).getD []) sect with
      | Except.error e => Except.error e
      | Except.ok its2 => Except.ok (some (DiskLauncher.mk (p, content).1 its2))) = _
  rw [hg, hgd]
  show (match items_view [] its with
    | Except.error e => Except.error e
    | Except.ok its2 => Except.ok (some (DiskLauncher.mk (p, content).1 its2))) = _
  rw [items_view_id hnd hpc]

/-! ### Except helpers -/

theorem except_ok_exists {ε α : Type} {r : Except ε α} (h : r.isOk = true) :
    ∃ a, r = Except.ok a := by
  cases r with
  | ok a => exact ⟨a, rfl⟩
  | error e => simp [Except.isOk, Except.toBool] at h

/-! ### Version comparison lemmas -/

theorem compare_ne_none {a b : LView} (h : a.cid ≠ b.cid) :
    ChannelLauncher.compare a b = Except.ok none := by
  rw [ChannelLauncher.compare, if_neg]
  simp [is_same_channel, h]

theorem compare_ok_inv {a b : LView} (hcid : a.cid = b.cid) {r : Option Int}
    (h : ChannelLauncher.compare a b = Except.ok r) :
    ∃ p q, parseVersionOpt a.cver = Except.ok p ∧ parseVersionOpt b.cver = Except.ok q ∧
      r = some (pyOrInt (p.1 - q.1) (p.2 - q.2)) := by
  rw [ChannelLauncher.compare, if_pos (by simp [is_same_channel, hcid])] at h
  cases hp : parseVersionOpt a.cver with
  | error e => rw [hp] at h; simp [bind, Except.bind] at h
  | ok p =>
    rw [hp] at h
    cases hq : parseVersionOpt b.cver with
    | error e => rw [hq] at h; simp [bind, Except.bind] at h
    | ok q =>
      rw [hq] at h
      simp only [bind, Except.bind, Except.ok.injEq] at h
      exact ⟨p, q, rfl, rfl, h.symm⟩

theorem compare_ok_of_parses {a b : LView} (hcid : a.cid = b.cid) {p q : Int × Int}
    (hp : parseVersionOpt a.cver = Except.ok p) (hq : parseVersionOpt b.cver = Except.ok q) :
    ChannelLauncher.compare a b =
      Except.ok (some (pyOrInt (p.1 - q.1) (p.2 - q.2))) := by
  rw [ChannelLauncher.compare, if_pos (by simp [is_same_channel, hcid])]
  simp [bind, Except.bind, hp, hq]

theorem compare_error_left {a b : LView} (hcid : a.cid = b.cid) {e : String}
    (he : parseVersionOpt a.cver = Except.error e) :
    ChannelLauncher.compare a b = Except.error e := by
  rw [ChannelLauncher.compare, if_pos (by simp [is_same_channel, hcid])]
  simp [bind, Except.bind, he]

theorem anyCompare_false_forall {a : LView} {views : List LView}
    (h : anyCompare a views = Except.ok false) :
    ∀ v ∈ views, a.cid = v.cid →
      ∃ p q, parseVersionOpt a.cver = Except.ok p ∧ parseVersionOpt v.cver = Except.ok q ∧
        pyOrInt (p.1 - q.1) (p.2 - q.2) = 0 := by
  induction views with
  | nil => intro v hv; simp at hv
  | cons b rest ih =>
    intro v hv hcid
    rw [anyCompare] at h
    cases hc : ChannelLauncher.compare a b with
    | error e => rw [hc] at h; simp [bind, Except.bind] at h
    | ok r =>
      rw [hc] at h
      simp only [bind, Except.bind] at h
      by_cases ht : pyTruthy r = true
      · rw [if_pos ht] at h
        exact absurd h (by simp)
      · rw [if_neg ht] at h
        rcases List.mem_cons.mp hv with rfl | hv'
        · obtain ⟨p, q, hp, hq, hr⟩ := compare_ok_inv hcid hc
          refine ⟨p, q, hp, hq, ?_⟩
          subst hr
          simpa [pyTruthy] using ht
        · exact ih h v hv' hcid

theorem anyCompare_eq_any (s : ChannelMetadataRec) (disk : List DiskLauncher)
    (hp : ∀ d ∈ disk, is_same_channel (dbView s) (diskView d) = true →
      (parseVersion (channel_version_db s)).isOk = true ∧
        (parseVersionOpt d.channel_version).isOk = true) :
    anyCompare (dbView s) (disk.map diskView) = Except.ok (disk.any (needsUpdateB s)) := by
  induction disk with
  | nil => rfl
  | cons d rest ih =>
    have ihr := ih (fun d' hd' => hp d' (List.mem_cons_of_mem _ hd'))
    rw [List.map_cons, anyCompare]
    by_cases hcid : (dbView s).cid = (diskView d).cid
    · obtain ⟨hps, hpd⟩ := hp d (List.mem_cons_self _ _) (by simp [is_same_channel, hcid])
      obtain ⟨p, hpp⟩ := except_ok_exists hps
      obtain ⟨q, hqq⟩ := except_ok_exists hpd
      have hpv : parseVersionOpt (dbView s).cver = Except.ok p := by
        simpa [dbView, parseVersionOpt] using hpp
      have hqv : parseVersionOpt (diskView d).cver = Except.ok q := by
        simpa [diskView, parseVersionOpt] using hqq
      rw [compare_ok_of_parses hcid hpv hqv]
      simp only [bind, Except.bind]
      have hupd : needsUpdateB s d =
          decide (pyOrInt (p.1 - q.1) (p.2 - q.2) ≠ 0) := by
        rw [needsUpdateB]
        have : parseVersionOpt d.channel_version = Except.ok q := by
          simpa [diskView] using hqv
        simp [is_same_channel, hcid, hpp, this]
      by_cases hz : pyOrInt (p.1 - q.1) (p.2 - q.2) = 0
      · rw [if_neg (by simp [pyTruthy, hz])]
        rw [ihr, List.any_cons, hupd]
        simp [hz]
      · rw [if_pos (by simp [pyTruthy, hz])]
        rw [List.any_cons, hupd]
        simp [hz]
    · rw [compare_ne_none hcid]
      simp only [bind, Except.bind]
      rw [if_neg (by simp [pyTruthy])]
      rw [ihr, List.any_cons]
      have : needsUpdateB s d = false := by
        rw [needsUpdateB]
        simp [is_same_channel, hcid]
      simp [this]

/-! ### save's effect on the filesystem -/

theorem write_channel_icon_eq_none {s : ChannelMetadataRec} (iconFail : Option String)
    (fs : FS) (hic : channel_icon s.thumbnail = none) :
    write_channel_icon s iconFail fs = Except.ok (fs, none) := by
  delta write_channel_icon
  rw [hic]

theorem write_channel_icon_eq_some {s : ChannelMetadataRec} (fs : FS) {icon : DataURIMatch}
    (hic : channel_icon s.thumbnail = some icon) :
    write_channel_icon s none fs =
      Except.ok
        ({ fs with
           icons := setKV (icon_base_name s.id ++ ChannelIcon_file_extension) icon fs.icons },
         some (icon_base_name s.id)) := by
  delta write_channel_icon
  rw [hic]

theorem write_channel_icon_eq_fail {s : ChannelMetadataRec} (fs : FS) {icon : DataURIMatch}
    (e : String) (hic : channel_icon s.thumbnail = some icon) :
    write_channel_icon s (some e) fs = Except.error e := by
  delta write_channel_icon
  rw [hic]

theorem write_desktop_file_eq_ok (m : ChannelMetadataRec) (iconName : Option String)
    (fs : FS) (hok : set_values_ok (desktopEntryPairs m iconName) = true) :
    write_desktop_file m iconName none fs =
      Except.ok
        { fs with
          entries := setKV (desktop_file_name m.id) (renderEntry m iconName) fs.entries } := by
  delta write_desktop_file
  rw [if_pos hok]

theorem write_desktop_file_eq_invalid (m : ChannelMetadataRec) (iconName : Option String)
    (entryFail : Option String) (fs : FS)
    (hok : set_values_ok (desktopEntryPairs m iconName) = false) :
    write_desktop_file m iconName entryFail fs =
      Except.error "ValueError: invalid interpolation syntax" := by
  delta write_desktop_file
  rw [if_neg (by rw [hok]; exact Bool.false_ne_true)]

theorem save_eq_of_icon_none (s : ChannelMetadataRec) (fs : FS)
    (hic : channel_icon s.thumbnail = none)
    (hok : set_values_ok (desktopEntryPairs s none) = true) :
    ChannelLauncher.save s none none fs =
      ({ fs with entries := setKV (desktop_file_name s.id) (renderEntry s none) fs.entries },
       []) := by
  delta ChannelLauncher.save
  rw [write_channel_icon_eq_none none fs hic]
  show (match write_desktop_file s none none fs with
    | Except.ok fs2 => (fs2, ([] : List LogEvent))
    | Except.error e => (fs, [LogEvent.entryWriteError s.id e])) = _
  rw [write_desktop_file_eq_ok s none fs hok]

theorem save_eq_of_icon_some (s : ChannelMetadataRec) (fs : FS) {icon : DataURIMatch}
    (hic : channel_icon s.thumbnail = some icon)
    (hok : set_values_ok (desktopEntryPairs s (some (icon_base_name s.id))) = true) :
    ChannelLauncher.save s none none fs =
      ({ entries := setKV (desktop_file_name s.id)
           (renderEntry s (some (icon_base_name s.id))) fs.entries,
         icons := setKV (icon_base_name s.id ++ ChannelIcon_file_extension) icon fs.icons },
       []) := by
  delta ChannelLauncher.save
  rw [write_channel_icon_eq_some fs hic]
  show (match write_desktop_file s (some (icon_base_name s.id)) none
      { fs with icons := setKV (icon_base_name s.id ++ ChannelIcon_file_extension) icon fs.icons } with
    | Except.ok fs2 => (fs2, ([] : List LogEvent))
    | Except.error e =>
      ({ fs with icons := setKV (icon_base_name s.id ++ ChannelIcon_file_extension) icon fs.icons },
       [LogEvent.entryWriteError s.id e])) = _
  rw [write_desktop_file_eq_ok s _ _ hok]

theorem save_eq_of_icon_none_invalid (s : ChannelMetadataRec) (fs : FS)
    (hic : channel_icon s.thumbnail = none)
    (hok : set_values_ok (desktopEntryPairs s none) = false) :
    ChannelLauncher.save s none none fs =
      (fs, [LogEvent.entryWriteError s.id "ValueError: invalid interpolation syntax"]) := by
  delta ChannelLauncher.save
  rw [write_channel_icon_eq_none none fs hic]
  show (match write_desktop_file s none none fs with
    | Except.ok fs2 => (fs2, ([] : List LogEvent))
    | Except.error e => (fs, [LogEvent.entryWriteError s.id e])) = _
  rw [write_desktop_file_eq_invalid s none none fs hok]

theorem save_eq_of_icon_some_invalid (s : ChannelMetadataRec) (fs : FS) {icon : DataURIMatch}
    (hic : channel_icon s.thumbnail = some icon)
    (hok : set_values_ok (desktopEntryPairs s (some (icon_base_name s.id))) = false) :
    ChannelLauncher.save s none none fs =
      ({ fs with
         icons := setKV (icon_base_name s.id ++ ChannelIcon_file_extension) icon fs.icons },
       [LogEvent.entryWriteError s.id "ValueError: invalid interpolation syntax"]) := by
  delta ChannelLauncher.save
  rw [write_channel_icon_eq_some fs hic]
  show (match write_desktop_file s (some (icon_base_name s.id)) none
      { fs with icons := setKV (icon_base_name s.id ++ ChannelIcon_file_extension) icon fs.icons } with
    | Except.ok fs2 => (fs2, ([] : List LogEvent))
    | Except.error e =>
      ({ fs with icons := setKV (icon_base_name s.id ++ ChannelIcon_file_extension) icon fs.icons },
       [LogEvent.entryWriteError s.id e])) = _
  rw [write_desktop_file_eq_invalid s _ none _ hok]

theorem save_entries (s : ChannelMetadataRec) (fs : FS) (h : entryOk s = true) :
    (ChannelLauncher.save s none none fs).1.entries =
      setKV (desktop_file_name s.id) (renderEntry s (icnOf s)) fs.entries := by
  rw [entryOk] at h
  cases hic : channel_icon s.thumbnail with
  | none =>
    have hicn : icnOf s = none := by rw [icnOf, hic]; rfl
    rw [hicn] at h ⊢
    rw [save_eq_of_icon_none s fs hic h]
  | some icon =>
    have hicn : icnOf s = some (icon_base_name s.id) := by rw [icnOf, hic]; rfl
    rw [hicn] at h ⊢
    rw [save_eq_of_icon_some s fs hic h]

theorem save_icons_of_none {s : ChannelMetadataRec} (fs : FS)
    (hic : channel_icon s.thumbnail = none) :
    (ChannelLauncher.save s none none fs).1.icons = fs.icons := by
  cases hok : set_values_ok (desktopEntryPairs s none) with
  | true => rw [save_eq_of_icon_none s fs hic hok]
  | false => rw [save_eq_of_icon_none_invalid s fs hic hok]

theorem save_icons_of_some {s : ChannelMetadataRec} (fs : FS) {icon : DataURIMatch}
    (hic : channel_icon s.thumbnail = some icon) :
    (ChannelLauncher.save s none none fs).1.icons =
      setKV (icon_base_name s.id ++ ChannelIcon_file_extension) icon fs.icons := by
  cases hok : set_values_ok (desktopEntryPairs s (some (icon_base_name s.id))) with
  | true => rw [save_eq_of_icon_some s fs hic hok]
  | false => rw [save_eq_of_icon_some_invalid s fs hic hok]

theorem save_logs (s : ChannelMetadataRec) (fs : FS) (h : entryOk s = true) :
    (ChannelLauncher.save s none none fs).2 = [] := by
  rw [entryOk] at h
  cases hic : channel_icon s.thumbnail with
  | none =>
    have hicn : icnOf s = none := by rw [icnOf, hic]; rfl
    rw [hicn] at h
    rw [save_eq_of_icon_none s fs hic h]
  | some icon =>
    have hicn : icnOf s = some (icon_base_name s.id) := by rw [icnOf, hic]; rfl
    rw [hicn] at h
    rw [save_eq_of_icon_some s fs hic h]

/-! ### Phase no-op lemmas -/

theorem phase_delete_noop (dbL : List ChannelMetadataRec) (disk : List DiskLauncher) (fs : FS)
    (h : ∀ d ∈ disk, launcherMatchesDb dbL d = true) :
    phase_delete dbL disk fs = Except.ok (fs, [], false) := by
  induction disk with
  | nil => rfl
  | cons d rest ih =>
    have hm : (dbL.any fun s => is_same_channel (diskView d) (dbView s)) = true :=
      h d (List.mem_cons_self _ _)
    rw [phase_delete, if_pos hm]
    exact ih fun d' hd' => h d' (List.mem_cons_of_mem _ hd')

theorem phase_save_noop (disk : List DiskLauncher) (dbl : List ChannelMetadataRec) (fs : FS)
    (h : ∀ s ∈ dbl, dbHasMatch disk s = true ∧
      anyCompare (dbView s) (disk.map diskView) = Except.ok false) :
    phase_save disk false dbl fs = Except.ok (fs, [], false) := by
  induction dbl with
  | nil => rfl
  | cons s rest ih =>
    obtain ⟨hm, hac⟩ := h s (List.mem_cons_self _ _)
    have hm' : (disk.any fun d => is_same_channel (dbView s) (diskView d)) = true := hm
    rw [phase_save, if_pos hm', if_neg (by simp)]
    rw [hac]
    simp only [bind, Except.bind]
    rw [if_neg (by simp)]
    exact ih fun s' hs' => h s' (List.mem_cons_of_mem _ hs')

/-! ### Phase characterizations -/

theorem delete_channel_icon_entries (d : DiskLauncher) (g : FS) :
    (delete_channel_icon d g).entries = g.entries := by
  rw [delete_channel_icon]
  by_cases h : hasK (icon_base_name (pyStrOpt d.channel_id) ++ ".png") g.icons = true
  · simp [h]
  · simp [h]

theorem hasK_filter_ne {α : Type} {k p : String} {l : List (String × α)}
    (h : hasK k l = true) (hne : k ≠ p) :
    hasK k (l.filter fun f => f.1 ≠ p) = true := by
  rcases List.mem_map.mp (hasK_iff.mp h) with ⟨f, hf, hfk⟩
  exact hasK_iff.mpr
    (hfk ▸ List.mem_map_of_mem _ (List.mem_filter.mpr ⟨hf, by simp [hfk, hne]⟩))

theorem phase_delete_spec (dbL : List ChannelMetadataRec) (disk : List DiskLauncher) :
    ∀ (fs : FS), (disk.map DiskLauncher.path).Nodup →
    (∀ d ∈ disk, hasK d.path fs.entries = true) →
    ((fs.entries.map Prod.fst).Nodup) →
    ∃ r, phase_delete dbL disk fs = Except.ok r ∧
      r.2.1 = disk.filterMap (fun d =>
        if launcherMatchesDb dbL d then none else some (PassAction.deleted d)) ∧
      r.2.2 = !r.2.1.isEmpty ∧
      r.1.entries = fs.entries.filter (fun f =>
        !(disk.any (fun d => !launcherMatchesDb dbL d && d.path = f.1))) := by
  induction disk with
  | nil =>
    intro fs _ _ _
    exact ⟨(fs, [], false), rfl, rfl, rfl, by simp⟩
  | cons d rest ih =>
    intro fs hnd hin hkeys
    rw [List.map_cons, List.nodup_cons] at hnd
    by_cases hm : launcherMatchesDb dbL d = true
    · have hm' : (dbL.any fun s => is_same_channel (diskView d) (dbView s)) = true := hm
      rw [phase_delete, if_pos hm']
      obtain ⟨r, hr, ha, hb, he⟩ :=
        ih fs hnd.2 (fun d' hd' => hin d' (List.mem_cons_of_mem _ hd')) hkeys
      refine ⟨r, hr, ?_, hb, ?_⟩
      · rw [List.filterMap_cons]
        simp [hm, ha]
      · rw [he]
        apply List.filter_congr
        intro f _
        simp [List.any_cons, hm]
    · have hm' : ¬ ((dbL.any fun s => is_same_channel (diskView d) (dbView s)) = true) := hm
      rw [phase_delete, if_neg hm']
      have hdf : delete_desktop_file d fs =
          Except.ok { fs with entries := removeFirst d.path fs.entries } := by
        rw [delete_desktop_file, if_pos (hin d (List.mem_cons_self _ _))]
      have hdel : ChannelLauncher.delete d fs =
          Except.ok (delete_channel_icon d { fs with entries := removeFirst d.path fs.entries }) := by
        rw [ChannelLauncher.delete, hdf]
        rfl
      rw [hdel]
      simp only [bind, Except.bind]
      set fs1 := delete_channel_icon d { fs with entries := removeFirst d.path fs.entries } with hfs1
      have hfe : fs1.entries = fs.entries.filter (fun f => f.1 ≠ d.path) := by
        rw [hfs1, delete_channel_icon_entries]
        exact removeFirst_eq_filter hkeys
      have hkeys1 : (fs1.entries.map Prod.fst).Nodup := by
        rw [hfe]
        exact ((List.filter_sublist _).map Prod.fst).nodup hkeys
      have hin1 : ∀ d' ∈ rest, hasK d'.path fs1.entries = true := by
        intro d' hd'
        rw [hfe]
        refine hasK_filter_ne (hin d' (List.mem_cons_of_mem _ hd')) ?_
        intro hpe
        exact hnd.1 (hpe ▸ List.mem_map_of_mem DiskLauncher.path hd')
      obtain ⟨r, hr, ha, hb, he⟩ := ih fs1 hnd.2 hin1 hkeys1
      rw [hr]
      simp only [bind, Except.bind]
      refine ⟨(r.1, PassAction.deleted d :: r.2.1, true), rfl, ?_, by simp, ?_⟩
      · rw [List.filterMap_cons]
        simp [hm, ha]
      · rw [he, hfe, List.filter_filter]
        apply List.filter_congr
        intro f _
        rw [List.any_cons]
        simp only [hm]
        by_cases hp : d.path = f.1
        · simp [hp]
        · simp [hp, Ne.symm hp]

theorem phase_save_spec (disk : List DiskLauncher) (force : Bool)
    (dbl : List ChannelMetadataRec) :
    ∀ (fs : FS), (∀ s ∈ dbl, saveDecision disk force s ≠ none) →
    ∃ r, phase_save disk force dbl fs = Except.ok r ∧
      r.2.1 = dbl.filterMap (fun s =>
        match saveDecision disk force s with
        | some true =>
          some (if dbHasMatch disk s then PassAction.updated s else PassAction.created s)
        | _ => none) ∧
      r.2.2 = !r.2.1.isEmpty ∧
      r.1 = (dbl.filter fun s => saveDecision disk force s = some true).foldl
        (fun g s => (ChannelLauncher.save s none none g).1) fs := by
  induction dbl with
  | nil =>
    intro fs _
    exact ⟨(fs, [], false), rfl, rfl, rfl, rfl⟩
  | cons s rest ih =>
    intro fs hall
    have hd := hall s (List.mem_cons_self _ _)
    have hallr := fun s' hs' => hall s' (List.mem_cons_of_mem _ hs')
    by_cases hm : dbHasMatch disk s = true
    · have hm' : (disk.any fun d => is_same_channel (dbView s) (diskView d)) = true := hm
      by_cases hf : force = true
      · have hdec : saveDecision disk force s = some true := by
          rw [saveDecision, if_pos hm, if_pos hf]
        rw [phase_save, if_pos hm', if_pos hf]
        obtain ⟨r, hr, ha, hb, he⟩ := ih (ChannelLauncher.save s none none fs).1 hallr
        rw [hr]
        simp only [bind, Except.bind]
        refine ⟨(r.1, PassAction.updated s :: r.2.1, true), rfl, ?_, by simp, ?_⟩
        · rw [List.filterMap_cons, hdec]
          simp [hm, ha]
        · rw [he, List.filter_cons_of_pos (by simp [hdec]), List.foldl_cons]
      · have hdec0 : saveDecision disk force s =
            (match anyCompare (dbView s) (disk.map diskView) with
             | Except.ok b => some b
             | Except.error _ => none) := by
          rw [saveDecision, if_pos hm, if_neg hf]
        rw [phase_save, if_pos hm', if_neg hf]
        cases hac : anyCompare (dbView s) (disk.map diskView) with
        | error e =>
          exfalso
          apply hd
          rw [hdec0, hac]
        | ok b =>
          have hdec : saveDecision disk force s = some b := by rw [hdec0, hac]
          simp only [bind, Except.bind]
          cases b with
          | true =>
            rw [if_pos rfl]
            obtain ⟨r, hr, ha, hb, he⟩ := ih (ChannelLauncher.save s none none fs).1 hallr
            rw [hr]
            simp only [bind, Except.bind]
            refine ⟨(r.1, PassAction.updated s :: r.2.1, true), rfl, ?_, by simp, ?_⟩
            · rw [List.filterMap_cons, hdec]
              simp [hm, ha]
            · rw [he, List.filter_cons_of_pos (by simp [hdec]), List.foldl_cons]
          | false =>
            rw [if_neg (by simp)]
            obtain ⟨r, hr, ha, hb, he⟩ := ih fs hallr
            rw [hr]
            refine ⟨r, rfl, ?_, hb, ?_⟩
            · rw [List.filterMap_cons, hdec]
              simp [ha]
            · rw [he, List.filter_cons_of_neg (by simp [hdec])]
    · have hm' : ¬ ((disk.any fun d => is_same_channel (dbView s) (diskView d)) = true) := hm
      have hdec : saveDecision disk force s = some true := by
        rw [saveDecision, if_neg hm]
      rw [phase_save, if_neg hm']
      obtain ⟨r, hr, ha, hb, he⟩ := ih (ChannelLauncher.save s none none fs).1 hallr
      rw [hr]
      simp only [bind, Except.bind]
      refine ⟨(r.1, PassAction.created s :: r.2.1, true), rfl, ?_, by simp, ?_⟩
      · rw [List.filterMap_cons, hdec]
        simp [hm, ha]
      · rw [he, List.filter_cons_of_pos (by simp [hdec]), List.foldl_cons]

theorem foldl_save_entries (l : List ChannelMetadataRec) :
    ∀ (g : FS), (∀ s ∈ l, entryOk s = true) →
    (l.foldl (fun g s => (ChannelLauncher.save s none none g).1) g).entries =
      l.foldl (fun es s => setKV (desktop_file_name s.id) (renderEntry s (icnOf s)) es)
        g.entries := by
  induction l with
  | nil =>
    intro g _
    rfl
  | cons s rest ih =>
    intro g h
    rw [List.foldl_cons, List.foldl_cons,
      ih _ fun s' hs' => h s' (List.mem_cons_of_mem _ hs'),
      save_entries s g (h s (List.mem_cons_self _ _))]

theorem phase_save_ok_forall {disk : List DiskLauncher} {force : Bool}
    {dbl : List ChannelMetadataRec} :
    ∀ {fs : FS} {r : FS × List PassAction × Bool},
    phase_save disk force dbl fs = Except.ok r →
    ∀ s ∈ dbl, saveDecision disk force s ≠ none := by
  induction dbl with
  | nil =>
    intro fs r _ s hs
    simp at hs
  | cons s rest ih =>
    intro fs r h s' hs'
    rw [phase_save] at h
    by_cases hm : dbHasMatch disk s = true
    · have hm' : (disk.any fun d => is_same_channel (dbView s) (diskView d)) = true := hm
      rw [if_pos hm'] at h
      by_cases hf : force = true
      · rw [if_pos hf] at h
        cases hrec : phase_save disk force rest (ChannelLauncher.save s none none fs).1 with
        | error e => rw [hrec] at h; simp [bind, Except.bind] at h
        | ok rr =>
          rcases List.mem_cons.mp hs' with rfl | hs'
          · rw [saveDecision, if_pos hm, if_pos hf]
            simp
          · exact ih hrec s' hs'
      · rw [if_neg hf] at h
        cases hac : anyCompare (dbView s) (disk.map diskView) with
        | error e => rw [hac] at h; simp [bind, Except.bind] at h
        | ok b =>
          rw [hac] at h
          simp only [bind, Except.bind] at h
          have hdec : saveDecision disk force s = some b := by
            rw [saveDecision, if_pos hm, if_neg hf, hac]
          cases b with
          | true =>
            rw [if_pos rfl] at h
            cases hrec : phase_save disk force rest (ChannelLauncher.save s none none fs).1 with
            | error e => rw [hrec] at h; simp [bind, Except.bind] at h
            | ok rr =>
              rcases List.mem_cons.mp hs' with rfl | hs'
              · rw [hdec]; simp
              · exact ih hrec s' hs'
          | false =>
            rw [if_neg (by simp)] at h
            rcases List.mem_cons.mp hs' with rfl | hs'
            · rw [hdec]; simp
            · exact ih h s' hs'
    · have hm' : ¬ ((disk.any fun d => is_same_channel (dbView s) (diskView d)) = true) := hm
      rw [if_neg hm'] at h
      cases hrec : phase_save disk force rest (ChannelLauncher.save s none none fs).1 with
      | error e => rw [hrec] at h; simp [bind, Except.bind] at h
      | ok rr =>
        rcases List.mem_cons.mp hs' with rfl | hs'
        · rw [saveDecision, if_neg hm]
          simp
        · exact ih hrec s' hs'

/-! ### load_all lemmas -/

theorem loadFile_path {f : String × String} {d : DiskLauncher}
    (h : loadFile f = Except.ok (some d)) : d.path = f.1 := by
  rw [loadFile] at h
  split at h
  · exact absurd h (by simp)
  · split at h
    · exact absurd h (by simp)
    · split at h
      · exact absurd h (by simp)
      · simp only [Except.ok.injEq, Option.some.injEq] at h
        rw [← h]

theorem mkDiskLauncher_of_loadFile {f : String × String} {d : DiskLauncher}
    (h : loadFile f = Except.ok (some d)) : mkDiskLauncher f = some d := by
  rw [mkDiskLauncher, h]

theorem mkDiskLauncher_path {f : String × String} {d : DiskLauncher}
    (h : mkDiskLauncher f = some d) : d.path = f.1 := by
  rw [mkDiskLauncher] at h
  cases hl : loadFile f with
  | error e => rw [hl] at h; simp at h
  | ok o =>
    rw [hl] at h
    cases o with
    | none => simp at h
    | some d' =>
      simp only [Option.some.injEq] at h
      exact h ▸ loadFile_path hl

theorem load_all_filterMap (files : List (String × String))
    (h : ∀ f ∈ files, (loadFile f).isOk = true) :
    load_all_from_disk files = Except.ok (files.filterMap mkDiskLauncher) := by
  induction files with
  | nil => rfl
  | cons f rest ih =>
    have ihr := ih fun f' hf' => h f' (List.mem_cons_of_mem _ hf')
    obtain ⟨o, ho⟩ := except_ok_exists (h f (List.mem_cons_self _ _))
    cases o with
    | none =>
      have hmk : mkDiskLauncher f = none := by rw [mkDiskLauncher, ho]
      have hstep : load_all_from_disk (f :: rest) = load_all_from_disk rest := by
        rw [load_all_from_disk, ho]
      rw [hstep, List.filterMap_cons, hmk, ihr]
    | some d =>
      have hmk : mkDiskLauncher f = some d := by rw [mkDiskLauncher, ho]
      have hstep : load_all_from_disk (f :: rest) =
          (load_all_from_disk rest).map fun ls => d :: ls := by
        rw [load_all_from_disk, ho]
      rw [hstep, ihr, List.filterMap_cons, hmk]
      rfl

theorem load_all_ok_parse {files : List (String × String)} {ls : List DiskLauncher}
    (h : load_all_from_disk files = Except.ok ls) :
    ∀ f ∈ files, (loadFile f).isOk = true := by
  induction files generalizing ls with
  | nil => intro f hf; simp at hf
  | cons f rest ih =>
    intro f' hf'
    rw [load_all_from_disk] at h
    cases hl : loadFile f with
    | error e => rw [hl] at h; simp at h
    | ok o =>
      rw [hl] at h
      rcases List.mem_cons.mp hf' with rfl | hf'
      · rw [hl]
        rfl
      · cases o with
        | none => exact ih h f' hf'
        | some d =>
          cases hrec : load_all_from_disk rest with
          | error e => rw [hrec] at h; simp [Except.map] at h
          | ok ls' => exact ih hrec f' hf'

theorem paths_filterMap_sublist (files : List (String × String)) :
    ((files.filterMap mkDiskLauncher).map DiskLauncher.path).Sublist
      (files.map Prod.fst) := by
  induction files with
  | nil => simp
  | cons f rest ih =>
    rw [List.filterMap_cons]
    cases hm : mkDiskLauncher f with
    | none =>
      rw [List.map_cons]
      exact ih.cons _
    | some d =>
      rw [List.map_cons, List.map_cons, mkDiskLauncher_path hm]
      exact ih.cons₂ _

/-! ### Bool/actions agreement in both phases -/

theorem phase_delete_ok_bool {dbL : List ChannelMetadataRec} {disk : List DiskLauncher} :
    ∀ {fs : FS} {r : FS × List PassAction × Bool},
    phase_delete dbL disk fs = Except.ok r → r.2.2 = !r.2.1.isEmpty := by
  induction disk with
  | nil =>
    intro fs r h
    rw [phase_delete] at h
    simp only [Except.ok.injEq] at h
    rw [← h]
    rfl
  | cons d rest ih =>
    intro fs r h
    rw [phase_delete] at h
    by_cases hm : (dbL.any fun s => is_same_channel (diskView d) (dbView s)) = true
    · rw [if_pos hm] at h
      exact ih h
    · rw [if_neg hm] at h
      cases hdel : ChannelLauncher.delete d fs with
      | error e => rw [hdel] at h; simp [bind, Except.bind] at h
      | ok fs1 =>
        rw [hdel] at h
        simp only [bind, Except.bind] at h
        cases hrec : phase_delete dbL rest fs1 with
        | error e => rw [hrec] at h; simp at h
        | ok rr =>
          rw [hrec] at h
          simp only [Except.ok.injEq] at h
          rw [← h]
          rfl

theorem phase_save_ok_bool {disk : List DiskLauncher} {force : Bool}
    {dbl : List ChannelMetadataRec} :
    ∀ {fs : FS} {r : FS × List PassAction × Bool},
    phase_save disk force dbl fs = Except.ok r → r.2.2 = !r.2.1.isEmpty := by
  induction dbl with
  | nil =>
    intro fs r h
    rw [phase_save] at h
    simp only [Except.ok.injEq] at h
    rw [← h]
    rfl
  | cons s rest ih =>
    intro fs r h
    rw [phase_save] at h
    by_cases hm : (disk.any fun d => is_same_channel (dbView s) (diskView d)) = true
    · rw [if_pos hm] at h
      by_cases hf : force = true
      · rw [if_pos hf] at h
        cases hrec : phase_save disk force rest (ChannelLauncher.save s none none fs).1 with
        | error e => rw [hrec] at h; simp [bind, Except.bind] at h
        | ok rr =>
          rw [hrec] at h
          simp only [bind, Except.bind, Except.ok.injEq] at h
          rw [← h]
          rfl
      · rw [if_neg hf] at h
        cases hac : anyCompare (dbView s) (disk.map diskView) with
        | error e => rw [hac] at h; simp [bind, Except.bind] at h
        | ok b =>
          rw [hac] at h
          simp only [bind, Except.bind] at h
          cases b with
          | true =>
            rw [if_pos rfl] at h
            cases hrec : phase_save disk force rest (ChannelLauncher.save s none none fs).1 with
            | error e => rw [hrec] at h; simp [bind, Except.bind] at h
            | ok rr =>
              rw [hrec] at h
              simp only [bind, Except.bind, Except.ok.injEq] at h
              rw [← h]
              rfl
          | false =>
            rw [if_neg (by simp)] at h
            exact ih h
    · rw [if_neg hm] at h
      cases hrec : phase_save disk force rest (ChannelLauncher.save s none none fs).1 with
      | error e => rw [hrec] at h; simp [bind, Except.bind] at h
      | ok rr =>
        rw [hrec] at h
        simp only [bind, Except.bind, Except.ok.injEq] at h
        rw [← h]
        rfl

/-! ### Assembling and inverting a whole pass -/

theorem except_bind_ok {eps alf bet : Type} (a : alf) (f : alf → Except eps bet) :
    (bind (Except.ok a) f : Except eps bet) = f a := rfl

theorem update_eq_ok {force : Bool} {db : List ChannelMetadataRec} {fs0 : FS}
    {disk : List DiskLauncher} {r1 r2 : FS × List PassAction × Bool}
    (hload : load_all_from_disk fs0.entries = Except.ok disk)
    (hr1 : phase_delete (db.filter fun m => m.rootAvailable) disk fs0 = Except.ok r1)
    (hr2 : phase_save disk force (db.filter fun m => m.rootAvailable) r1.1 = Except.ok r2) :
    update_channel_launchers force db fs0 =
      Except.ok ⟨r2.1, r1.2.1 ++ r2.2.1, r1.2.2 || r2.2.2, r1.2.2 || r2.2.2, none⟩ := by
  rw [update_channel_launchers]
  simp only [hload, except_bind_ok, hr1, hr2]

theorem update_ok_inv {force : Bool} {db : List ChannelMetadataRec} {fs0 : FS}
    {st : PassResult} (h : update_channel_launchers force db fs0 = Except.ok st) :
    ∃ disk r1 r2,
      load_all_from_disk fs0.entries = Except.ok disk ∧
      phase_delete (db.filter fun m => m.rootAvailable) disk fs0 = Except.ok r1 ∧
      phase_save disk force (db.filter fun m => m.rootAvailable) r1.1 = Except.ok r2 ∧
      st = ⟨r2.1, r1.2.1 ++ r2.2.1, r1.2.2 || r2.2.2, r1.2.2 || r2.2.2, none⟩ := by
  rw [update_channel_launchers] at h
  cases hload : load_all_from_disk fs0.entries with
  | error e => rw [hload] at h; simp [bind, Except.bind] at h
  | ok disk =>
    rw [hload] at h
    simp only [except_bind_ok] at h
    cases hr1 : phase_delete (db.filter fun m => m.rootAvailable) disk fs0 with
    | error e => rw [hr1] at h; simp [bind, Except.bind] at h
    | ok r1 =>
      rw [hr1] at h
      simp only [except_bind_ok] at h
      cases hr2 : phase_save disk force (db.filter fun m => m.rootAvailable) r1.1 with
      | error e => rw [hr2] at h; simp [bind, Except.bind] at h
      | ok r2 =>
        rw [hr2] at h
        simp only [except_bind_ok, Except.ok.injEq] at h
        exact ⟨disk, r1, r2, rfl, hr1, hr2, h.symm⟩

/-! ### Claim C2 -/

/-- C2 (amended): on a same-channel pair, when both version strings parse
as two dot-free '~'-separated integers, compare returns the Python-or of
the component differences, which orders the pairs lexicographically
(zero iff equal, negative iff less, positive iff greater); when either
version fails to parse, compare raises ValueError — it does not return an
incomparable marker. -/
theorem compare_version_amended (id v1 v2 : String) (p q : Int × Int)
    (h1 : parseVersion v1 = Except.ok p) (h2 : parseVersion v2 = Except.ok q) :
    ChannelLauncher.compare ⟨some id, some v1⟩ ⟨some id, some v2⟩ =
      Except.ok (some (pyOrInt (p.1 - q.1) (p.2 - q.2))) ∧
    (pyOrInt (p.1 - q.1) (p.2 - q.2) = 0 ↔ p = q) ∧
    (pyOrInt (p.1 - q.1) (p.2 - q.2) < 0 ↔ (p.1 < q.1 ∨ (p.1 = q.1 ∧ p.2 < q.2))) ∧
    (0 < pyOrInt (p.1 - q.1) (p.2 - q.2) ↔ (q.1 < p.1 ∨ (p.1 = q.1 ∧ q.2 < p.2))) ∧
    (∀ w1 w2 e : String, parseVersion w1 = Except.error e →
      ChannelLauncher.compare ⟨some id, some w1⟩ ⟨some id, some w2⟩ = Except.error e) := by
  refine ⟨@compare_ok_of_parses ⟨some id, some v1⟩ ⟨some id, some v2⟩ rfl p q h1 h2, ?_, ?_, ?_, ?_⟩
  · rw [Prod.ext_iff]
    unfold pyOrInt
    by_cases hz : p.1 - q.1 = 0
    · rw [if_pos hz]; omega
    · rw [if_neg hz]; omega
  · unfold pyOrInt
    by_cases hz : p.1 - q.1 = 0
    · rw [if_pos hz]; omega
    · rw [if_neg hz]; omega
  · unfold pyOrInt
    by_cases hz : p.1 - q.1 = 0
    · rw [if_pos hz]; omega
    · rw [if_neg hz]; omega
  · intro w1 w2 e he
    exact @compare_error_left ⟨some id, some w1⟩ ⟨some id, some w2⟩ rfl e he

/-- C2 counterexample: compare on the same-channel pair "abc~1" vs "3~1"
raises (int("abc") is a ValueError) instead of returning an incomparable
result, refuting "compareVersion … returns incomparable (never raises)". -/
theorem compare_raises_on_nonint_version :
    (ChannelLauncher.compare ⟨some "c", some "abc~1"⟩ ⟨some "c", some "3~1"⟩).isOk
      = false := by decide

/-- Witness for compare_version_amended at "3~5" vs "3~6" (the spec's
"less" example). -/
theorem compare_version_amended_witness :
    ChannelLauncher.compare ⟨some "c", some "3~5"⟩ ⟨some "c", some "3~6"⟩ =
      Except.ok (some (pyOrInt ((3 : Int) - 3) ((5 : Int) - 6))) :=
  (compare_version_amended "c" "3~5" "3~6" (3, 5) (3, 6) rfl rfl).1

/-! ### Claim C9 -/

/-- C9: compare returns None — without raising — whenever the two
launchers' channel ids differ, and the update check's
any(map(launcher.compare, disk)) therefore evaluates to false over a disk
list containing no same-channel launcher, treating every None as "no
update needed". -/
theorem compare_none_on_different_channels (a b : LView) (h : a.cid ≠ b.cid)
    (s : LView) (disk : List LView) (hd : ∀ d ∈ disk, s.cid ≠ d.cid) :
    ChannelLauncher.compare a b = Except.ok none ∧
      anyCompare s disk = Except.ok false := by
  refine ⟨compare_ne_none h, ?_⟩
  induction disk with
  | nil => rfl
  | cons d rest ih =>
    rw [anyCompare, compare_ne_none (hd d (List.mem_cons_self _ _))]
    simp only [bind, Except.bind]
    rw [if_neg (by simp [pyTruthy])]
    exact ih fun d' hd' => hd d' (List.mem_cons_of_mem _ hd')

/-- Witness for compare_none_on_different_channels: different ids (and a
from-disk launcher with no id at all) give None/false without raising. -/
theorem compare_none_on_different_channels_witness :
    ChannelLauncher.compare ⟨some "a", some "1~5"⟩ ⟨some "b", some "2~5"⟩ =
        Except.ok none ∧
      anyCompare ⟨some "a", some "1~5"⟩ [⟨some "b", some "2~5"⟩, ⟨none, none⟩] =
        Except.ok false :=
  compare_none_on_different_channels _ _ (by decide) _ _ (by decide)

/-! ### Claim C3 -/

/-- C3 (amended): update_channel_launchers records in its internal
did_icons_change flag whether at least one create, update or delete
occurred, and invokes the icon-cache refresh iff that flag is set; the
function body has no return statement, so the call itself returns None
rather than that flag. -/
theorem update_flag_gates_refresh (force : Bool) (db : List ChannelMetadataRec)
    (fs0 : FS) (st : PassResult)
    (h : update_channel_launchers force db fs0 = Except.ok st) :
    (st.did_icons_change = true ↔ st.actions ≠ []) ∧
    st.icon_cache_refreshed = st.did_icons_change ∧
    st.ret = none := by
  obtain ⟨disk, r1, r2, hload, hr1, hr2, hst⟩ := update_ok_inv h
  have hb1 := phase_delete_ok_bool hr1
  have hb2 := phase_save_ok_bool hr2
  subst hst
  refine ⟨?_, rfl, rfl⟩
  show (r1.2.2 || r2.2.2) = true ↔ r1.2.1 ++ r2.2.1 ≠ []
  rw [hb1, hb2]
  cases h1 : r1.2.1 <;> cases h2 : r2.2.1 <;> simp

/-- C3 counterexample: a pass that performs a creation (actions nonempty)
returns None — not true — because update_channel_launchers has no return
statement. -/
theorem update_returns_none_despite_change :
    ((update_channel_launchers false
        [⟨"a", "2", "Chan A", none, "", true⟩] ⟨[], []⟩).toOption.map
      fun st => (st.actions.isEmpty, st.ret)) = some (false, none) := by decide

/-- Witness for update_flag_gates_refresh on a concrete creating pass. -/
theorem update_flag_gates_refresh_witness :
    ∃ st, update_channel_launchers false
        [⟨"b", "2", "Chan B", none, "", true⟩] ⟨[], []⟩ = Except.ok st ∧
      ((st.did_icons_change = true ↔ st.actions ≠ []) ∧
        st.icon_cache_refreshed = st.did_icons_change ∧ st.ret = none) := by
  obtain ⟨st, hst⟩ := @except_ok_exists String PassResult
    (update_channel_launchers false [⟨"b", "2", "Chan B", none, "", true⟩] ⟨[], []⟩)
    (by decide)
  exact ⟨st, hst, update_flag_gates_refresh _ _ _ _ hst⟩

/-! ### Claim C5 -/

/-- C5 (amended): a thumbnail that does not match the data-URI grammar
data:<mimetype>;base64,<payload> makes ChannelIcon construction raise
ValueError (InvalidThumbnail); the launcher's ValueError guard turns that
into "no channel icon", so save writes no icon file and attempts the
entry without an Icon key.  The entry file is actually written iff every
entry value passes set()'s interpolation validation; a value with a bare
'%' makes set() raise ValueError instead, and that failure is logged and
no entry is written. -/
theorem invalid_thumbnail_skips_icon (m : ChannelMetadataRec) (fs : FS)
    (h : dataURIMatch m.thumbnail = none) :
    ChannelIconInit m.thumbnail = Except.error "ValueError: Invalid data URI" ∧
    channel_icon m.thumbnail = none ∧
    ChannelLauncher.save m none none fs =
      (if set_values_ok (desktopEntryPairs m none) = true then
        ({ fs with
           entries := setKV (desktop_file_name m.id) (renderEntry m none) fs.entries },
         ([] : List LogEvent))
      else
        (fs, [LogEvent.entryWriteError m.id "ValueError: invalid interpolation syntax"])) ∧
    getK "Icon" (desktopEntryPairs m none) = none ∧
    (ChannelLauncher.save m none none fs).1.icons = fs.icons := by
  have hinit : ChannelIconInit m.thumbnail = Except.error "ValueError: Invalid data URI" := by
    delta ChannelIconInit
    rw [h]
  have hci : channel_icon m.thumbnail = none := by
    delta channel_icon
    rw [hinit]
  refine ⟨hinit, hci, ?_, rfl, save_icons_of_none fs hci⟩
  cases hok : set_values_ok (desktopEntryPairs m none) with
  | true =>
    rw [if_pos rfl]
    exact save_eq_of_icon_none m fs hci hok
  | false =>
    rw [if_neg Bool.false_ne_true]
    exact save_eq_of_icon_none_invalid m fs hci hok

/-- C5 counterexample: with an invalid thumbnail AND a name holding a bare
'%' ("100% math"), the icon is skipped as claimed but the entry file is
NOT written — set() raises ValueError, save logs it and leaves the
filesystem untouched — refuting "the entry file is still written". -/
theorem entry_not_written_on_percent_name :
    channel_icon "image/png;base64,AA" = none ∧
    ChannelLauncher.save ⟨"a", "1", "100% math", none, "image/png;base64,AA", true⟩
        none none ⟨[], []⟩ =
      (⟨[], []⟩,
       [LogEvent.entryWriteError "a" "ValueError: invalid interpolation syntax"]) := by
  constructor
  · decide
  · decide

/-- Witness for invalid_thumbnail_skips_icon: thumbnail missing the
data: prefix, clean name, so the entry is written without an Icon key. -/
theorem invalid_thumbnail_skips_icon_witness :
    channel_icon "image/png;base64,AA" = none ∧
    getK "Icon"
      (desktopEntryPairs ⟨"a", "1", "N", none, "image/png;base64,AA", true⟩ none) = none ∧
    ChannelLauncher.save ⟨"a", "1", "N", none, "image/png;base64,AA", true⟩
        none none ⟨[], []⟩ =
      (if set_values_ok
          (desktopEntryPairs ⟨"a", "1", "N", none, "image/png;base64,AA", true⟩ none) = true
       then
        ({ entries := setKV (desktop_file_name "a")
             (renderEntry ⟨"a", "1", "N", none, "image/png;base64,AA", true⟩ none) [],
           icons := [] },
         ([] : List LogEvent))
       else
        (⟨[], []⟩,
         [LogEvent.entryWriteError "a" "ValueError: invalid interpolation syntax"])) := by
  have h := invalid_thumbnail_skips_icon
    ⟨"a", "1", "N", none, "image/png;base64,AA", true⟩ ⟨[], []⟩ (by decide)
  exact ⟨h.2.1, h.2.2.2.1, h.2.2.1⟩

/-! ### Claim C6 -/

/-- C6: save never raises — both writes are guarded.  When the icon write
fails, the failure is logged, the icon name is treated as absent, and the
entry write proceeds without an Icon key (written when its values pass
set()'s validation, otherwise that ValueError is the logged entry
failure); when the entry write fails — by injected I/O failure or by
set()'s own ValueError — the failure is logged, the entry list is
untouched, and save still returns normally; with both failing, both are
logged and the entry list is untouched. -/
theorem save_logs_and_continues (m : ChannelMetadataRec) (fs : FS) (e : String)
    {icon : DataURIMatch} (hic : channel_icon m.thumbnail = some icon) :
    ChannelLauncher.save m (some e) none fs =
      (if set_values_ok (desktopEntryPairs m none) = true then
        ({ fs with
           entries := setKV (desktop_file_name m.id) (renderEntry m none) fs.entries },
         [LogEvent.iconWriteError m.id e])
      else
        (fs, [LogEvent.iconWriteError m.id e,
              LogEvent.entryWriteError m.id "ValueError: invalid interpolation syntax"])) ∧
    getK "Icon" (desktopEntryPairs m none) = none ∧
    (∀ e2 : String,
      (ChannelLauncher.save m none (some e2) fs).1.entries = fs.entries ∧
      (ChannelLauncher.save m none (some e2) fs).2 =
        [LogEvent.entryWriteError m.id
          (if set_values_ok (desktopEntryPairs m (some (icon_base_name m.id))) = true
           then e2 else "ValueError: invalid interpolation syntax")]) ∧
    (∀ e2 : String, ChannelLauncher.save m (some e) (some e2) fs =
      (fs, [LogEvent.iconWriteError m.id e,
            LogEvent.entryWriteError m.id
              (if set_values_ok (desktopEntryPairs m none) = true
               then e2 else "ValueError: invalid interpolation syntax")])) := by
  refine ⟨?_, rfl, ?_, ?_⟩
  · delta ChannelLauncher.save
    rw [write_channel_icon_eq_fail fs e hic]
    show (match write_desktop_file m none none fs with
      | Except.ok fs2 => (fs2, [LogEvent.iconWriteError m.id e])
      | Except.error e2 =>
        (fs, [LogEvent.iconWriteError m.id e, LogEvent.entryWriteError m.id e2])) = _
    cases hok : set_values_ok (desktopEntryPairs m none) with
    | true =>
      rw [write_desktop_file_eq_ok m none fs hok, if_pos rfl]
    | false =>
      rw [write_desktop_file_eq_invalid m none none fs hok, if_neg Bool.false_ne_true]
  · intro e2
    constructor
    · delta ChannelLauncher.save
      rw [write_channel_icon_eq_some fs hic]
      show (match write_desktop_file m (some (icon_base_name m.id)) (some e2)
          { fs with
            icons := setKV (icon_base_name m.id ++ ChannelIcon_file_extension) icon fs.icons }
          with
        | Except.ok fs2 => (fs2, ([] : List LogEvent))
        | Except.error er =>
          ({ fs with
             icons := setKV (icon_base_name m.id ++ ChannelIcon_file_extension) icon fs.icons },
           [LogEvent.entryWriteError m.id er])).1.entries = fs.entries
      cases hok : set_values_ok (desktopEntryPairs m (some (icon_base_name m.id))) with
      | true =>
        rw [show write_desktop_file m (some (icon_base_name m.id)) (some e2)
            { fs with
              icons := setKV (icon_base_name m.id ++ ChannelIcon_file_extension) icon fs.icons } =
            Except.error e2 from by delta write_desktop_file; rw [if_pos hok]]
      | false =>
        rw [write_desktop_file_eq_invalid m _ (some e2) _ hok]
    · delta ChannelLauncher.save
      rw [write_channel_icon_eq_some fs hic]
      show (match write_desktop_file m (some (icon_base_name m.id)) (some e2)
          { fs with
            icons := setKV (icon_base_name m.id ++ ChannelIcon_file_extension) icon fs.icons }
          with
        | Except.ok fs2 => (fs2, ([] : List LogEvent))
        | Except.error er =>
          ({ fs with
             icons := setKV (icon_base_name m.id ++ ChannelIcon_file_extension) icon fs.icons },
           [LogEvent.entryWriteError m.id er])).2 = _
      cases hok : set_values_ok (desktopEntryPairs m (some (icon_base_name m.id))) with
      | true =>
        rw [show write_desktop_file m (some (icon_base_name m.id)) (some e2)
            { fs with
              icons := setKV (icon_base_name m.id ++ ChannelIcon_file_extension) icon fs.icons } =
            Except.error e2 from by delta write_desktop_file; rw [if_pos hok], if_pos rfl]
      | false =>
        rw [write_desktop_file_eq_invalid m _ (some e2) _ hok, if_neg Bool.false_ne_true]
  · intro e2
    delta ChannelLauncher.save
    rw [write_channel_icon_eq_fail fs e hic]
    show (match write_desktop_file m none (some e2) fs with
      | Except.ok fs2 => (fs2, [LogEvent.iconWriteError m.id e])
      | Except.error er =>
        (fs, [LogEvent.iconWriteError m.id e, LogEvent.entryWriteError m.id er])) = _
    cases hok : set_values_ok (desktopEntryPairs m none) with
    | true =>
      rw [show write_desktop_file m none (some e2) fs = Except.error e2 from by
          delta write_desktop_file; rw [if_pos hok], if_pos rfl]
    | false =>
      rw [write_desktop_file_eq_invalid m none (some e2) fs hok, if_neg Bool.false_ne_true]

/-- Witness for save_logs_and_continues on a concrete launcher with a
valid thumbnail and a failing icon write. -/
theorem save_logs_and_continues_witness :
    ChannelLauncher.save ⟨"a", "1", "N", none, "data:image/png;base64,AA", true⟩
        (some "boom") none ⟨[], []⟩ =
      ({ entries := setKV (desktop_file_name "a")
           (renderEntry ⟨"a", "1", "N", none, "data:image/png;base64,AA", true⟩ none) [],
         icons := [] },
       [LogEvent.iconWriteError "a" "boom"]) := by
  have h := (@save_logs_and_continues ⟨"a", "1", "N", none, "data:image/png;base64,AA", true⟩
    ⟨[], []⟩ "boom" ⟨"image/png", "AA"⟩ (by decide)).1
  rwa [if_pos (by decide)] at h

/-! ### Claims C7 and C10 -/

theorem LAUNCHER_PREFIX_length : LAUNCHER_PREFIX.length = 37 := rfl

theorem icon_base_name_ne_empty (cid : String) : icon_base_name cid ≠ "" := by
  intro h
  have hl := congrArg String.length h
  rw [icon_base_name, String.length_append, LAUNCHER_PREFIX_length] at hl
  simp at hl

theorem desktopEntryPairs_some_icon (m : ChannelMetadataRec) :
    desktopEntryPairs m (some (icon_base_name m.id)) =
      [("Version", "1.0"),
       ("Type", "Application"),
       ("Name", m.name),
       ("Comment", pyOrStr m.tagline ""),
       ("Exec", "flatpak run org.learningequality.Kolibri --channel-id " ++ m.id),
       ("X-Endless-LaunchMaximized", "True"),
       ("X-Kolibri-Channel-Id", m.id),
       ("X-Kolibri-Channel-Version", channel_version_db m),
       ("Categories", String.intercalate ";" LAUNCHER_CATEGORIES ++ ";"),
       ("Icon", icon_base_name m.id)] := by
  simp [desktopEntryPairs, icon_base_name_ne_empty m.id]

/-- C7 (amended): for a from-source launcher whose values pass set()'s
interpolation validation (e.g. no bare '%' in the name), the written
entry file is exactly one "Desktop Entry" section holding, in order,
Version=1.0, Type=Application, Name, Comment (possibly empty), the fixed
Exec template parameterized by the channel id,
X-Endless-LaunchMaximized=True, X-Kolibri-Channel-Id,
X-Kolibri-Channel-Version, and Categories (the fixed list
semicolon-joined with a trailing semicolon, "Education;X-Kolibri-Channel;"),
plus Icon iff an icon was produced; each line is rendered key=value with
no spaces around '='.  Without the proviso no entry is written at all:
set() raises ValueError on the bad value. -/
theorem desktop_file_exact_keys (m : ChannelMetadataRec) (fs : FS)
    (hok : entryOk m = true) :
    getK (desktop_file_name m.id) (ChannelLauncher.save m none none fs).1.entries =
      some (renderEntry m (icnOf m)) ∧
    (desktopEntryPairs m (icnOf m)).map Prod.fst =
      ["Version", "Type", "Name", "Comment", "Exec", "X-Endless-LaunchMaximized",
       "X-Kolibri-Channel-Id", "X-Kolibri-Channel-Version", "Categories"] ++
      (if (channel_icon m.thumbnail).isSome then ["Icon"] else []) ∧
    getK "Version" (desktopEntryPairs m (icnOf m)) = some "1.0" ∧
    getK "Type" (desktopEntryPairs m (icnOf m)) = some "Application" ∧
    getK "Name" (desktopEntryPairs m (icnOf m)) = some m.name ∧
    getK "Comment" (desktopEntryPairs m (icnOf m)) = some (pyOrStr m.tagline "") ∧
    getK "Exec" (desktopEntryPairs m (icnOf m)) =
      some ("flatpak run org.learningequality.Kolibri --channel-id " ++ m.id) ∧
    getK "X-Endless-LaunchMaximized" (desktopEntryPairs m (icnOf m)) = some "True" ∧
    getK "X-Kolibri-Channel-Id" (desktopEntryPairs m (icnOf m)) = some m.id ∧
    getK "X-Kolibri-Channel-Version" (desktopEntryPairs m (icnOf m)) =
      some (channel_version_db m) ∧
    getK "Categories" (desktopEntryPairs m (icnOf m)) =
      some (String.intercalate ";" LAUNCHER_CATEGORIES ++ ";") ∧
    String.intercalate ";" LAUNCHER_CATEGORIES ++ ";" = "Education;X-Kolibri-Channel;" ∧
    (getK "Icon" (desktopEntryPairs m (icnOf m)) =
      if (channel_icon m.thumbnail).isSome then some (icon_base_name m.id) else none) ∧
    renderEntry m (icnOf m) = renderINI "Desktop Entry" (desktopEntryPairs m (icnOf m)) ∧
    (∀ kv : String × String,
      renderKV kv = kv.1 ++ "=" ++ String.mk (replaceNL kv.2.data) ++ "\n") := by
  have hsave : getK (desktop_file_name m.id)
      (ChannelLauncher.save m none none fs).1.entries = some (renderEntry m (icnOf m)) := by
    rw [save_entries m fs hok, getK_setKV_self]
  cases hic : channel_icon m.thumbnail with
  | none =>
    have hicn : icnOf m = none := by rw [icnOf, hic]; rfl
    rw [hicn] at hsave ⊢
    exact ⟨hsave, rfl, rfl, rfl, rfl, rfl, rfl, rfl, rfl, rfl, rfl, rfl, rfl, rfl,
      fun kv => rfl⟩
  | some icon =>
    have hicn : icnOf m = some (icon_base_name m.id) := by rw [icnOf, hic]; rfl
    rw [hicn] at hsave ⊢
    refine ⟨hsave, ?_, rfl, rfl, rfl, rfl, rfl, rfl, rfl, rfl, rfl, rfl, ?_, rfl,
      fun kv => rfl⟩
    · rw [desktopEntryPairs_some_icon]
      rfl
    · rw [desktopEntryPairs_some_icon]
      rfl

/-- C7 counterexample: a name with a bare '%' ("100% math") makes set()
raise, so save writes NO entry file at all — the entry list stays empty
and the failure is logged — refuting the unconditional "the written entry
file consists of ...". -/
theorem no_entry_file_on_percent_name :
    (ChannelLauncher.save ⟨"a", "1", "100% math", none, "", true⟩ none none ⟨[], []⟩).1.entries
      = [] ∧
    (ChannelLauncher.save ⟨"a", "1", "100% math", none, "", true⟩ none none ⟨[], []⟩).2
      = [LogEvent.entryWriteError "a" "ValueError: invalid interpolation syntax"] := by
  constructor
  · decide
  · decide

/-- Witness for desktop_file_exact_keys on a concrete launcher with a
valid thumbnail and percent-free values. -/
theorem desktop_file_exact_keys_witness :
    entryOk ⟨"a", "1", "N", none, "data:image/png;base64,AA", true⟩ = true ∧
    getK "X-Kolibri-Channel-Version"
      (desktopEntryPairs ⟨"a", "1", "N", none, "data:image/png;base64,AA", true⟩
        (icnOf ⟨"a", "1", "N", none, "data:image/png;base64,AA", true⟩)) =
      some (channel_version_db ⟨"a", "1", "N", none, "data:image/png;base64,AA", true⟩) :=
  ⟨by decide,
   (desktop_file_exact_keys ⟨"a", "1", "N", none, "data:image/png;base64,AA", true⟩
     ⟨[], []⟩ (by decide)).2.2.2.2.2.2.2.2.2.1⟩

/-- C10: when an icon is produced the entry's Icon value is the bare icon
name prefix+channel_id with no extension, while the icon file itself is
written under that name with ".png" appended; the Icon key therefore
never equals the icon file's on-disk name. -/
theorem icon_key_vs_icon_file (m : ChannelMetadataRec) (fs : FS)
    {icon : DataURIMatch} (hic : channel_icon m.thumbnail = some icon) :
    write_channel_icon m none fs =
      Except.ok
        ({ fs with
           icons := setKV (icon_base_name m.id ++ ChannelIcon_file_extension) icon fs.icons },
         some (icon_base_name m.id)) ∧
    getK "Icon" (desktopEntryPairs m (some (icon_base_name m.id))) =
      some (icon_base_name m.id) ∧
    getK (icon_base_name m.id ++ ChannelIcon_file_extension)
      (ChannelLauncher.save m none none fs).1.icons = some icon ∧
    ChannelIcon_file_extension = ".png" ∧
    icon_base_name m.id ≠ icon_base_name m.id ++ ChannelIcon_file_extension := by
  refine ⟨write_channel_icon_eq_some fs hic, ?_, ?_, rfl, ?_⟩
  · rw [desktopEntryPairs_some_icon]
    rfl
  · rw [save_icons_of_some fs hic, getK_setKV_self]
  · intro h
    have hl := congrArg String.length h
    rw [String.length_append] at hl
    have h4 : ChannelIcon_file_extension.length = 4 := rfl
    omega

/-- Witness for icon_key_vs_icon_file on a concrete launcher. -/
theorem icon_key_vs_icon_file_witness :
    icon_base_name "a" ≠ icon_base_name "a" ++ ChannelIcon_file_extension :=
  (@icon_key_vs_icon_file ⟨"a", "1", "N", none, "data:image/png;base64,AA", true⟩
    ⟨[], []⟩ ⟨"image/png", "AA"⟩ (by decide)).2.2.2.2

/-! ### Claim C8 -/

/-- C8 (amended): from-disk loading constructs exactly one launcher per
applications-directory file whose parse yields a "Desktop Entry" section
and whose DEFAULT-merged section values interpolate cleanly; a channel-id
field is NOT required — a file with the section but no
X-Kolibri-Channel-Id still yields a launcher whose channel_id is None.
An unparseable file aborts the enumeration (ParsingError rather than a
skip), and so does any file whose items ConfigParser cannot interpolate,
e.g. a value with a bare '%' such as Exec=app %U. -/
theorem load_all_yields_per_desktop_section (files : List (String × String))
    (h : ∀ f ∈ files, (loadFile f).isOk = true) :
    load_all_from_disk files = Except.ok (files.filterMap mkDiskLauncher) ∧
    (∀ f : String × String, ∀ d : DiskLauncher,
      loadFile f = Except.ok (some d) → mkDiskLauncher f = some d ∧ d.path = f.1) ∧
    (∀ f : String × String, ∀ secs : Sections,
      parseINI f.2 = some secs → getSection "Desktop Entry" secs = none →
      loadFile f = Except.ok none ∧ mkDiskLauncher f = none) ∧
    (∀ f : String × String, parseINI f.2 = none →
      loadFile f = Except.error "configparser.ParsingError") ∧
    (∀ f : String × String, ∀ rest : List (String × String), ∀ e : String,
      loadFile f = Except.error e →
      load_all_from_disk (f :: rest) = Except.error e) ∧
    (∀ d : DiskLauncher, d.channel_id = getK "X-Kolibri-Channel-Id" d.data) := by
  refine ⟨load_all_filterMap files h, ?_, ?_, ?_, ?_, fun d => rfl⟩
  · intro f d hl
    exact ⟨mkDiskLauncher_of_loadFile hl, loadFile_path hl⟩
  · intro f secs hp hg
    have hl : loadFile f = Except.ok none := by
      rw [loadFile, hp]
      show (match getSection "Desktop Entry" secs with
        | none => Except.ok none
        | some sect =>
          match items_view ((getSection "DEFAULT" secs).getD []) sect with
          | Except.error e => Except.error e
          | Except.ok its => Except.ok (some (DiskLauncher.mk f.1 its))) = Except.ok none
      rw [hg]
    exact ⟨hl, by rw [mkDiskLauncher, hl]⟩
  · intro f hp
    rw [loadFile, hp]
  · intro f rest e hl
    rw [load_all_from_disk, hl]

/-- C8 counterexample: a file with a "Desktop Entry" section but no
channel-id field still yields exactly one from-disk launcher (with
channel_id None), refuting "files without a channel-id field yield no
from-disk launcher". -/
theorem load_all_yields_launcher_without_channel_id :
    load_all_from_disk [("x.desktop", "[Desktop Entry]\n")] =
        Except.ok [⟨"x.desktop", []⟩] ∧
      DiskLauncher.channel_id ⟨"x.desktop", []⟩ = none := by
  constructor
  · rfl
  · rfl

/-- Witness for load_all_yields_per_desktop_section on a two-file
directory: one file with the section (no channel id), one without. -/
theorem load_all_yields_per_desktop_section_witness :
    load_all_from_disk
        [("x.desktop", "[Desktop Entry]\n"), ("y.desktop", "[Other]\nA=1\n")] =
      Except.ok (List.filterMap mkDiskLauncher
        [("x.desktop", "[Desktop Entry]\n"), ("y.desktop", "[Other]\nA=1\n")]) :=
  (load_all_yields_per_desktop_section
    [("x.desktop", "[Desktop Entry]\n"), ("y.desktop", "[Other]\nA=1\n")]
    (by decide)).1

/-- The read-side interpolation abort on a standard desktop Exec value:
the file parses, has the section, yet items() raises and load_all aborts
instead of yielding a launcher. -/
theorem load_aborts_on_percent_value :
    (loadFile ("z.desktop", "[Desktop Entry]\nExec=app %U\n")).isOk = false ∧
    (load_all_from_disk
      [("x.desktop", "[Desktop Entry]\n"),
       ("z.desktop", "[Desktop Entry]\nExec=app %U\n")]).isOk = false := by
  constructor
  · decide
  · decide

/-! ### Claim C1 -/

/-- C1 (amended): when loading the launcher directory succeeds (files
parse and their items interpolate — a bare '%' value would already abort
the pass inside ConfigParser.items), the pass performs the spec's diff —
every disk launcher with no same-channel entry in the
(available-filtered) source list is deleted; every source launcher with
no same-channel disk entry is created; a source launcher with a disk
match is updated iff force is true or some same-channel disk launcher
compares unequal; when the versions compare equal and force is false,
nothing is saved for that channel.  The proviso (forced by the
counterexample): when force is false and a matched pair's version fails
to parse as two '~'-separated integers, the pass raises and aborts
instead of treating the pair as "not equal". -/
theorem update_diff_amended (force : Bool) (db : List ChannelMetadataRec) (fs0 : FS)
    (disk : List DiskLauncher)
    (hload : load_all_from_disk fs0.entries = Except.ok disk)
    (hkeys : (fs0.entries.map Prod.fst).Nodup)
    (hparse : ∀ s ∈ db.filter (fun m => m.rootAvailable), ∀ d ∈ disk,
      is_same_channel (dbView s) (diskView d) = true →
      (parseVersion (channel_version_db s)).isOk = true ∧
        (parseVersionOpt d.channel_version).isOk = true) :
    ∃ st, update_channel_launchers force db fs0 = Except.ok st ∧
      st.actions =
        (disk.filterMap fun d =>
          if launcherMatchesDb (db.filter fun m => m.rootAvailable) d then none
          else some (PassAction.deleted d)) ++
        ((db.filter fun m => m.rootAvailable).filterMap fun s =>
          if dbHasMatch disk s then
            if force || disk.any (needsUpdateB s) then some (PassAction.updated s)
            else none
          else some (PassAction.created s)) := by
  have hfm : disk = fs0.entries.filterMap mkDiskLauncher := by
    have h2 := load_all_filterMap fs0.entries (load_all_ok_parse hload)
    rw [hload] at h2
    exact Except.ok.inj h2
  have hnd : (disk.map DiskLauncher.path).Nodup := by
    rw [hfm]
    exact (paths_filterMap_sublist fs0.entries).nodup hkeys
  have hin : ∀ d ∈ disk, hasK d.path fs0.entries = true := by
    intro d hd
    rw [hfm] at hd
    rcases List.mem_filterMap.mp hd with ⟨f, hf, hmk⟩
    rw [mkDiskLauncher_path hmk]
    exact hasK_iff.mpr (List.mem_map_of_mem Prod.fst hf)
  obtain ⟨r1, hr1, ha1, hb1, he1⟩ :=
    phase_delete_spec (db.filter fun m => m.rootAvailable) disk fs0 hnd hin hkeys
  have hdecide : ∀ s ∈ db.filter (fun m => m.rootAvailable),
      saveDecision disk force s =
        some (!dbHasMatch disk s || (force || disk.any (needsUpdateB s))) := by
    intro s hs
    rw [saveDecision]
    by_cases hm : dbHasMatch disk s = true
    · by_cases hf : force = true
      · simp [hm, hf]
      · rw [if_pos hm, if_neg hf, anyCompare_eq_any s disk (hparse s hs)]
        simp [hm, hf]
    · simp [hm]
  have hall : ∀ s ∈ db.filter (fun m => m.rootAvailable),
      saveDecision disk force s ≠ none := by
    intro s hs
    rw [hdecide s hs]
    simp
  obtain ⟨r2, hr2, ha2, hb2, he2⟩ :=
    phase_save_spec disk force (db.filter fun m => m.rootAvailable) r1.1 hall
  refine ⟨_, update_eq_ok hload hr1 hr2, ?_⟩
  show r1.2.1 ++ r2.2.1 = _
  rw [ha1, ha2]
  congr 1
  apply List.filterMap_congr
  intro s hs
  rw [hdecide s hs]
  by_cases hm : dbHasMatch disk s = true
  · by_cases hforce : (force || disk.any (needsUpdateB s)) = true
    · simp [hm, hforce]
    · simp [hm, hforce]
  · simp [hm]

/-- C1 counterexample: a matched pair whose source version does not parse
("x~5" against on-disk "1~5") makes the pass raise instead of saving the
launcher, so "incomparable counting as not equal ⇒ save (overwrite)" is
false on the code. -/
theorem update_raises_on_unparsable_version :
    (update_channel_launchers false
      [⟨"a", "x", "Chan A", none, "", true⟩]
      ⟨[("org.learningequality.Kolibri.Channel.a.desktop",
         "[Desktop Entry]\nX-Kolibri-Channel-Id=a\nX-Kolibri-Channel-Version=1~5\n")],
       []⟩).isOk = false := by decide

/-- Witness for update_diff_amended: a one-channel source list against an
empty applications directory yields exactly one creation. -/
theorem update_diff_amended_witness :
    ∃ st, update_channel_launchers false
        [⟨"a", "2", "Chan A", none, "", true⟩] ⟨[], []⟩ = Except.ok st ∧
      st.actions =
        (([] : List DiskLauncher).filterMap fun d =>
          if launcherMatchesDb
              ([⟨"a", "2", "Chan A", none, "", true⟩].filter fun m => m.rootAvailable) d
          then none else some (PassAction.deleted d)) ++
        (([⟨"a", "2", "Chan A", none, "", true⟩].filter fun m =>
            m.rootAvailable).filterMap fun s =>
          if dbHasMatch ([] : List DiskLauncher) s then
            if false || ([] : List DiskLauncher).any (needsUpdateB s) then
              some (PassAction.updated s)
            else none
          else some (PassAction.created s)) :=
  update_diff_amended false [⟨"a", "2", "Chan A", none, "", true⟩] ⟨[], []⟩ []
    rfl (by decide) (by intro s hs d hd; simp at hd)

/-! ### Character-level lemmas for the configparser round trip -/

theorem replaceNL_eq_self {l : List Char} (h : '\n' ∉ l) : replaceNL l = l := by
  induction l with
  | nil => rfl
  | cons c rest ih =>
    have hc : c ≠ '\n' := fun hh => h (hh ▸ List.mem_cons_self _ _)
    have hr : '\n' ∉ rest := fun hm => h (List.mem_cons_of_mem _ hm)
    rw [replaceNL, if_neg hc, ih hr]

theorem trimLead_append_of_clean {k : List Char} (h : trimLeadC k = k) (hne : k ≠ [])
    (r : List Char) : trimLeadC (k ++ r) = k ++ r := by
  rw [trimLeadC, List.dropWhile_append]
  rw [trimLeadC] at h
  rw [h]
  simp [List.isEmpty_iff, hne]

theorem dropWhile_idem (p : Char → Bool) (l : List Char) :
    List.dropWhile p (List.dropWhile p l) = List.dropWhile p l := by
  induction l with
  | nil => rfl
  | cons c rest ih =>
    by_cases hc : p c = true
    · rw [List.dropWhile_cons_of_pos hc]
      exact ih
    · rw [List.dropWhile_cons_of_neg hc, List.dropWhile_cons_of_neg hc]

theorem trimLead_idem (l : List Char) : trimLeadC (trimLeadC l) = trimLeadC l :=
  dropWhile_idem isWS l

theorem stripChars_trailStrip (v : List Char) :
    stripChars (trailStrip v) = stripChars v := by
  unfold stripChars trailStrip
  rw [List.reverse_reverse, trimLead_idem]

theorem strip_kv_line {k : List Char} (hlead : trimLeadC k = k) (hne : k ≠ [])
    (v : List Char) : stripChars (k ++ '=' :: v) = k ++ '=' :: trailStrip v := by
  rw [stripChars]
  have h1 : (k ++ '=' :: v).reverse = v.reverse ++ '=' :: k.reverse := by
    simp
  rw [h1]
  have h2 : trimLeadC (v.reverse ++ '=' :: k.reverse) =
      trimLeadC v.reverse ++ '=' :: k.reverse := by
    rw [trimLeadC, List.dropWhile_append]
    by_cases he : (List.dropWhile isWS v.reverse).isEmpty = true
    · rw [if_pos he]
      rw [List.isEmpty_iff] at he
      rw [List.dropWhile_cons_of_neg (by decide), trimLeadC, he]
      rfl
    · rw [if_neg he]
      rfl
  rw [h2]
  have h3 : (trimLeadC v.reverse ++ '=' :: k.reverse).reverse =
      k ++ '=' :: trailStrip v := by
    rw [trailStrip]
    simp
  rw [h3]
  exact trimLead_append_of_clean hlead hne _

theorem splitAtFirstDelim_of_clean {k : List Char}
    (hk : ∀ c ∈ k, ¬(c = '=' ∨ c = ':')) (w : List Char) :
    splitAtFirstDelim (k ++ '=' :: w) = some (k, w) := by
  induction k with
  | nil =>
    rw [List.nil_append, splitAtFirstDelim]
    simp
  | cons c rest ih =>
    rw [List.cons_append, splitAtFirstDelim,
      if_neg (hk c (List.mem_cons_self _ _)),
      ih fun c' hc' => hk c' (List.mem_cons_of_mem _ hc')]

/-! ### splitLines lemmas -/

theorem splitLines_nl (rest : List Char) :
    splitLines ('\n' :: rest) = [] :: splitLines rest := by
  rw [splitLines]
  simp

theorem splitLines_append {a b : List Char} (ha : '\n' ∉ a) {h : List Char}
    {t : List (List Char)} (hb : splitLines b = h :: t) :
    splitLines (a ++ b) = (a ++ h) :: t := by
  induction a with
  | nil => simpa using hb
  | cons c arest ih =>
    have hc : c ≠ '\n' := fun hh => ha (hh ▸ List.mem_cons_self _ _)
    have ih' := ih fun hm => ha (List.mem_cons_of_mem _ hm)
    rw [List.cons_append, splitLines, if_neg hc, ih']
    rfl

/-! ### parseLines step lemmas -/

theorem sectionHeader_cons_ne {c : Char} (h : c ≠ '[') (l : List Char) :
    sectionHeaderChars? (c :: l) = none := by
  rw [sectionHeaderChars?, if_neg h]

theorem parseLines_kv_step (k : String) (vc : List Char) (rest : List (List Char))
    (done : Sections) (sec : String) (items : Items)
    (c : Char) (k' : List Char) (hk : k.data = c :: k')
    (hc1 : c ≠ '[') (hc2 : (c = '#' || c = ';') = false)
    (hlead : trimLeadC k.data = k.data)
    (hstrip : stripChars k.data = k.data)
    (hdelim : ∀ ch ∈ k.data, ¬(ch = '=' ∨ ch = ':'))
    (hnew : hasKey k items = false) :
    parseLines ((k.data ++ '=' :: vc) :: rest) done (some (sec, items)) =
      parseLines rest done (some (sec, items ++ [(k, String.mk (stripChars vc))])) := by
  have hne : k.data ≠ [] := by rw [hk]; simp
  have hstripline : stripChars (k.data ++ '=' :: vc) = k.data ++ '=' :: trailStrip vc :=
    strip_kv_line hlead hne vc
  have hempty : (k.data ++ '=' :: trailStrip vc) = [] → False := by
    intro hcontra
    rw [hk] at hcontra
    simp at hcontra
  have hcomment : isCommentLine (k.data ++ '=' :: trailStrip vc) = false := by
    rw [hk, List.cons_append, isCommentLine]
    exact hc2
  have hheader : sectionHeaderChars? (k.data ++ '=' :: trailStrip vc) = none := by
    rw [hk, List.cons_append]
    exact sectionHeader_cons_ne hc1 _
  have hkv : kvOfLine (k.data ++ '=' :: trailStrip vc) =
      some (k, String.mk (stripChars vc)) := by
    rw [kvOfLine, splitAtFirstDelim_of_clean hdelim]
    show (if k.data = [] then none
      else some (String.mk (stripChars k.data), String.mk (stripChars (trailStrip vc)))) =
      some (k, String.mk (stripChars vc))
    rw [if_neg hne, hstrip, stripChars_trailStrip]
  rw [parseLines]
  simp only [hstripline, hempty, hcomment, hheader, hkv]
  rw [if_neg hempty]
  simp only [Bool.false_eq_true, if_false]
  rw [if_neg (by rw [hnew]; exact Bool.false_ne_true)]

theorem parseLines_header_step (rest : List (List Char)) :
    parseLines ("[Desktop Entry]".data :: rest) [] none =
      parseLines rest [] (some ("Desktop Entry", [])) := rfl

theorem parseLines_end (sec : String) (items : Items) :
    parseLines [[], []] [] (some (sec, items)) = some [(sec, items)] := rfl

theorem splitLines_renderLines (kvs : Items)
    (hnl : ∀ kv ∈ kvs, '\n' ∉ kv.1.data ∧ '\n' ∉ kv.2.data) :
    splitLines ((renderLines kvs ++ "\n").data) =
      kvs.map (fun kv => kv.1.data ++ '=' :: kv.2.data) ++ [[], []] := by
  induction kvs with
  | nil => rfl
  | cons kv rest ih =>
    have hk := (hnl kv (List.mem_cons_self _ _)).1
    have hv := (hnl kv (List.mem_cons_self _ _)).2
    have ihr := ih fun kv' h' => hnl kv' (List.mem_cons_of_mem _ h')
    have hdata : ((renderLines (kv :: rest) ++ "\n")).data =
        (kv.1.data ++ '=' :: replaceNL kv.2.data) ++
          '\n' :: (renderLines rest ++ "\n").data := by
      rw [renderLines, renderKV]
      simp [String.data_append]
    rw [hdata, replaceNL_eq_self hv]
    have ha : '\n' ∉ kv.1.data ++ '=' :: kv.2.data := by
      intro hm
      rcases List.mem_append.mp hm with hm | hm
      · exact hk hm
      · rcases List.mem_cons.mp hm with he | hm
        · exact absurd he (by decide)
        · exact hv hm
    rw [splitLines_append ha (splitLines_nl _), List.append_nil, ihr, List.map_cons]
    rfl

/-- The single-section round trip for the entry files write_desktop_file
produces: the file parses back to one "Desktop Entry" section whose items
are the written pairs with values stripped. -/
theorem parse_renderINI (kvs : Items)
    (hnl : ∀ kv ∈ kvs, '\n' ∉ kv.1.data ∧ '\n' ∉ kv.2.data)
    (items : Items)
    (hsteps : parseLines (kvs.map (fun kv => kv.1.data ++ '=' :: kv.2.data) ++ [[], []])
        [] (some ("Desktop Entry", [])) = some [("Desktop Entry", items)]) :
    parseINI (renderINI "Desktop Entry" kvs) = some [("Desktop Entry", items)] := by
  rw [parseINI]
  have hdata : (renderINI "Desktop Entry" kvs).data =
      "[Desktop Entry]".data ++ '\n' :: (renderLines kvs ++ "\n").data := by
    rw [renderINI]
    simp [String.data_append]
  rw [hdata, splitLines_append (by decide) (splitLines_nl _), List.append_nil,
    splitLines_renderLines kvs hnl, parseLines_header_step]
  exact hsteps

theorem parseLines_kv_step2 (k : String) (vc : List Char) (rest : List (List Char))
    (done : Sections) (sec : String) (items : Items)
    (hclean : cleanKeyB k = true) (hnew : hasKey k items = false) :
    parseLines ((k.data ++ '=' :: vc) :: rest) done (some (sec, items)) =
      parseLines rest done (some (sec, items ++ [(k, String.mk (stripChars vc))])) := by
  delta cleanKeyB at hclean
  obtain ⟨c, k', hkd⟩ : ∃ c k', k.data = c :: k' := by
    cases hk2 : k.data with
    | nil =>
      rw [hk2] at hclean
      simp at hclean
    | cons c k' => exact ⟨c, k', rfl⟩
  rw [hkd] at hclean
  simp only [Bool.and_eq_true, Bool.not_eq_true', decide_eq_true_eq, List.all_eq_true,
    Bool.not_eq_eq_eq_not, Bool.not_true, decide_eq_false_iff_not] at hclean
  obtain ⟨⟨⟨⟨hc1, hc2⟩, hlead⟩, hstrip⟩, hdelim⟩ := hclean
  refine parseLines_kv_step k vc rest done sec items c k' hkd ?_ ?_ ?_ ?_ ?_ hnew
  · intro hcontra
    rw [hcontra] at hc1
    simp at hc1
  · simp only [Bool.or_eq_false_iff, decide_eq_false_iff_not]
    constructor
    · intro hcontra
      rw [hcontra] at hc2
      simp at hc2
    · intro hcontra
      rw [hcontra] at hc2
      simp at hc2
  · simpa [hkd] using hlead
  · simpa [hkd] using hstrip
  · simpa [hkd] using hdelim

theorem parseLines_kv_chain (kvs : Items) : ∀ items : Items,
    (∀ kv ∈ kvs, cleanKeyB kv.1 = true) →
    ((items.map Prod.fst ++ kvs.map Prod.fst).Nodup) →
    parseLines (kvs.map (fun kv => kv.1.data ++ '=' :: kv.2.data) ++ [[], []])
        [] (some ("Desktop Entry", items)) =
      some [("Desktop Entry", items ++ kvs.map (fun kv => (kv.1, pyStrip kv.2)))] := by
  induction kvs with
  | nil =>
    intro items _ _
    simp only [List.map_nil, List.nil_append, List.append_nil]
    exact parseLines_end "Desktop Entry" items
  | cons kv rest ih =>
    intro items hclean hnodup
    rw [List.map_cons, List.cons_append,
      parseLines_kv_step2 kv.1 kv.2.data _ _ _ items
        (hclean kv (List.mem_cons_self _ _))
        (by
          have hnotin : kv.1 ∉ items.map Prod.fst := by
            rw [List.map_cons] at hnodup
            intro hmem
            exact (List.nodup_append.mp hnodup).2.2 hmem (List.mem_cons_self _ _)
          cases hh : hasKey kv.1 items with
          | false => rfl
          | true => exact absurd (hasK_iff.mp hh) hnotin)]
    have hres := ih (items ++ [(kv.1, String.mk (stripChars kv.2.data))])
      (fun kv' h' => hclean kv' (List.mem_cons_of_mem _ h'))
      (by
        rw [List.map_cons] at hnodup
        rw [List.map_append, List.map_cons, List.map_nil]
        simpa [List.append_assoc] using hnodup)
    rw [hres]
    rw [List.map_cons, List.append_assoc]
    rfl

theorem desktopEntryPairs_none (m : ChannelMetadataRec) :
    desktopEntryPairs m none =
      [("Version", "1.0"),
       ("Type", "Application"),
       ("Name", m.name),
       ("Comment", pyOrStr m.tagline ""),
       ("Exec", "flatpak run org.learningequality.Kolibri --channel-id " ++ m.id),
       ("X-Endless-LaunchMaximized", "True"),
       ("X-Kolibri-Channel-Id", m.id),
       ("X-Kolibri-Channel-Version", channel_version_db m),
       ("Categories", String.intercalate ";" LAUNCHER_CATEGORIES ++ ";")] := rfl

/-- The entry file written for launcher m (with either icon outcome)
parses back to a single "Desktop Entry" section whose items are the
written pairs with stripped values. -/
theorem parse_renderEntry (m : ChannelMetadataRec) (icn : Option String)
    (hicn : icn = none ∨ icn = some (icon_base_name m.id))
    (hid : '\n' ∉ m.id.data)
    (hname : '\n' ∉ m.name.data)
    (htag : '\n' ∉ (pyOrStr m.tagline "").data)
    (hver : '\n' ∉ (channel_version_db m).data) :
    parseINI (renderEntry m icn) =
      some [("Desktop Entry",
        (desktopEntryPairs m icn).map fun kv => (kv.1, pyStrip kv.2))] := by
  have hexec : '\n' ∉ ("flatpak run org.learningequality.Kolibri --channel-id " ++ m.id).data := by
    rw [String.data_append]
    intro hm
    rcases List.mem_append.mp hm with hm | hm
    · exact absurd hm (by decide)
    · exact hid hm
  have hiconv : '\n' ∉ (icon_base_name m.id).data := by
    rw [icon_base_name, String.data_append]
    intro hm
    rcases List.mem_append.mp hm with hm | hm
    · exact absurd hm (by decide)
    · exact hid hm
  rcases hicn with hicn | hicn
  · subst hicn
    rw [renderEntry]
    apply parse_renderINI
    · intro kv hkv
      rw [desktopEntryPairs_none] at hkv
      simp only [List.mem_cons, List.not_mem_nil, or_false] at hkv
      rcases hkv with rfl | rfl | rfl | rfl | rfl | rfl | rfl | rfl | rfl
      · exact ⟨of_decide_eq_true rfl, of_decide_eq_true rfl⟩
      · exact ⟨of_decide_eq_true rfl, of_decide_eq_true rfl⟩
      · exact ⟨of_decide_eq_true rfl, hname⟩
      · exact ⟨of_decide_eq_true rfl, htag⟩
      · exact ⟨of_decide_eq_true rfl, hexec⟩
      · exact ⟨of_decide_eq_true rfl, of_decide_eq_true rfl⟩
      · exact ⟨of_decide_eq_true rfl, hid⟩
      · exact ⟨of_decide_eq_true rfl, hver⟩
      · exact ⟨of_decide_eq_true rfl, of_decide_eq_true rfl⟩
    · have hch := parseLines_kv_chain (desktopEntryPairs m none) []
        (by
          intro kv hkv
          rw [desktopEntryPairs_none] at hkv
          simp only [List.mem_cons, List.not_mem_nil, or_false] at hkv
          rcases hkv with rfl | rfl | rfl | rfl | rfl | rfl | rfl | rfl | rfl <;> rfl)
        (of_decide_eq_true rfl)
      exact hch
  · subst hicn
    rw [renderEntry]
    apply parse_renderINI
    · intro kv hkv
      rw [desktopEntryPairs_some_icon] at hkv
      simp only [List.mem_cons, List.not_mem_nil, or_false] at hkv
      rcases hkv with rfl | rfl | rfl | rfl | rfl | rfl | rfl | rfl | rfl | rfl
      · exact ⟨of_decide_eq_true rfl, of_decide_eq_true rfl⟩
      · exact ⟨of_decide_eq_true rfl, of_decide_eq_true rfl⟩
      · exact ⟨of_decide_eq_true rfl, hname⟩
      · exact ⟨of_decide_eq_true rfl, htag⟩
      · exact ⟨of_decide_eq_true rfl, hexec⟩
      · exact ⟨of_decide_eq_true rfl, of_decide_eq_true rfl⟩
      · exact ⟨of_decide_eq_true rfl, hid⟩
      · exact ⟨of_decide_eq_true rfl, hver⟩
      · exact ⟨of_decide_eq_true rfl, of_decide_eq_true rfl⟩
      · exact ⟨of_decide_eq_true rfl, hiconv⟩
    · have hch := parseLines_kv_chain
        (desktopEntryPairs m (some (icon_base_name m.id))) []
        (by
          intro kv hkv
          rw [desktopEntryPairs_some_icon] at hkv
          simp only [List.mem_cons, List.not_mem_nil, or_false] at hkv
          rcases hkv with rfl | rfl | rfl | rfl | rfl | rfl | rfl | rfl | rfl | rfl <;> rfl)
        (by
          have hkeys : (([] : Items).map Prod.fst ++
              (desktopEntryPairs m (some (icon_base_name m.id))).map Prod.fst) =
              ["Version", "Type", "Name", "Comment", "Exec", "X-Endless-LaunchMaximized",
               "X-Kolibri-Channel-Id", "X-Kolibri-Channel-Version", "Categories", "Icon"] := by
            rw [desktopEntryPairs_some_icon]
            rfl
          rw [hkeys]
          decide)
      simpa using hch

/-! ### Folded-write helper lemmas -/

theorem icnOf_cases (s : ChannelMetadataRec) :
    icnOf s = none ∨ icnOf s = some (icon_base_name s.id) := by
  cases hic : channel_icon s.thumbnail with
  | none =>
    left
    rw [icnOf, hic]
    rfl
  | some icon =>
    right
    rw [icnOf, hic]
    rfl

theorem mem_setKV_of_ne {α : Type} {f : String × α} {k : String} {v : α}
    {l : List (String × α)} (hf : f ∈ l) (hne : f.1 ≠ k) : f ∈ setKV k v l := by
  induction l with
  | nil => simp at hf
  | cons kv rest ih =>
    rcases List.mem_cons.mp hf with rfl | hf'
    · rw [setKV, if_neg hne]
      exact List.mem_cons_self _ _
    · by_cases hk : kv.1 = k
      · rw [setKV, if_pos hk]
        exact List.mem_cons_of_mem _ hf'
      · rw [setKV, if_neg hk]
        exact List.mem_cons_of_mem _ (ih hf')

theorem desktop_file_name_inj {a b : String}
    (h : desktop_file_name a = desktop_file_name b) : a = b := by
  have hd := congrArg String.data h
  rw [desktop_file_name, desktop_file_name, String.data_append, String.data_append,
    String.data_append, String.data_append] at hd
  exact String.ext (List.append_cancel_left (List.append_cancel_right hd))

theorem nodup_keys_mem_eq {α : Type} {l : List (String × α)}
    (hnd : (l.map Prod.fst).Nodup) {f g : String × α}
    (hf : f ∈ l) (hg : g ∈ l) (hfg : f.1 = g.1) : f = g :=
  List.inj_on_of_nodup_map hnd hf hg hfg

theorem mem_foldl_setKV {g v : ChannelMetadataRec → String} :
    ∀ (l : List ChannelMetadataRec) (base : List (String × String)) {f : String × String},
    (base.map Prod.fst).Nodup →
    f ∈ l.foldl (fun es s => setKV (g s) (v s) es) base →
    (∃ s ∈ l, f = (g s, v s)) ∨ (f ∈ base ∧ ∀ s ∈ l, f.1 ≠ g s) := by
  intro l
  induction l with
  | nil =>
    intro base f _ hf
    exact Or.inr ⟨hf, by simp⟩
  | cons s rest ih =>
    intro base f hnd hf
    rw [List.foldl_cons] at hf
    rcases ih (setKV (g s) (v s) base) (nodup_keys_setKV hnd) hf with ⟨s', hs', rfl⟩ | ⟨hfb, hfk⟩
    · exact Or.inl ⟨s', List.mem_cons_of_mem _ hs', rfl⟩
    · rcases mem_setKV_of_nodup hnd hfb with rfl | ⟨hfb', hne⟩
      · exact Or.inl ⟨s, List.mem_cons_self _ _, rfl⟩
      · refine Or.inr ⟨hfb', ?_⟩
        intro s' hs'
        rcases List.mem_cons.mp hs' with rfl | hs''
        · exact hne
        · exact hfk s' hs''

theorem mem_foldl_of_mem_base {g v : ChannelMetadataRec → String} :
    ∀ (l : List ChannelMetadataRec) (base : List (String × String)) {f : String × String},
    f ∈ base → (∀ s ∈ l, f.1 ≠ g s) →
    f ∈ l.foldl (fun es s => setKV (g s) (v s) es) base := by
  intro l
  induction l with
  | nil =>
    intro base f hf _
    exact hf
  | cons s rest ih =>
    intro base f hf hk
    rw [List.foldl_cons]
    exact ih _ (mem_setKV_of_ne hf (hk s (List.mem_cons_self _ _)))
      fun s' hs' => hk s' (List.mem_cons_of_mem _ hs')

theorem getK_foldl_of_not_written {g v : ChannelMetadataRec → String} :
    ∀ (l : List ChannelMetadataRec) (base : List (String × String)) {k : String},
    (∀ s ∈ l, k ≠ g s) →
    getK k (l.foldl (fun es s => setKV (g s) (v s) es) base) = getK k base := by
  intro l
  induction l with
  | nil =>
    intro base k _
    rfl
  | cons s rest ih =>
    intro base k hk
    rw [List.foldl_cons, ih _ fun s' hs' => hk s' (List.mem_cons_of_mem _ hs'),
      getK_setKV_ne (hk s (List.mem_cons_self _ _))]

theorem getK_foldl_of_mem {g v : ChannelMetadataRec → String} :
    ∀ (l : List ChannelMetadataRec) (base : List (String × String)) {s : ChannelMetadataRec},
    (l.map g).Nodup → s ∈ l →
    getK (g s) (l.foldl (fun es t => setKV (g t) (v t) es) base) = some (v s) := by
  intro l
  induction l with
  | nil =>
    intro base s _ hs
    simp at hs
  | cons t rest ih =>
    intro base s hnd hs
    rw [List.map_cons, List.nodup_cons] at hnd
    rw [List.foldl_cons]
    rcases List.mem_cons.mp hs with rfl | hs'
    · rw [getK_foldl_of_not_written rest _ (fun s' hs' hgg => hnd.1 (by
          rw [hgg]
          exact List.mem_map_of_mem g hs')),
        getK_setKV_self]
    · exact ih _ hnd.2 hs'

theorem saveDecision_false_elim {disk : List DiskLauncher} {force : Bool}
    {s : ChannelMetadataRec} (h : saveDecision disk force s = some false) :
    dbHasMatch disk s = true ∧ force = false ∧
      anyCompare (dbView s) (disk.map diskView) = Except.ok false := by
  delta saveDecision at h
  by_cases hm : dbHasMatch disk s = true
  · rw [if_pos hm] at h
    by_cases hfo : force = true
    · rw [if_pos hfo] at h
      simp at h
    · rw [if_neg hfo] at h
      cases hac : anyCompare (dbView s) (disk.map diskView) with
      | error e =>
        rw [hac] at h
        simp at h
      | ok bb =>
        rw [hac] at h
        simp only [Option.some.injEq] at h
        refine ⟨hm, by revert hfo; cases force <;> simp, ?_⟩
        rw [h]
  · rw [if_neg hm] at h
    simp at h

theorem desktopEntryPairs_keys_nodup (s : ChannelMetadataRec) :
    ((((desktopEntryPairs s (icnOf s)).map fun kv => (kv.1, pyStrip kv.2)).map
      Prod.fst)).Nodup := by
  rcases icnOf_cases s with hie | hie <;> rw [hie]
  · have hk : (((desktopEntryPairs s none).map fun kv => (kv.1, pyStrip kv.2)).map
        Prod.fst) =
        ["Version", "Type", "Name", "Comment", "Exec", "X-Endless-LaunchMaximized",
         "X-Kolibri-Channel-Id", "X-Kolibri-Channel-Version", "Categories"] := rfl
    rw [hk]
    decide
  · rw [desktopEntryPairs_some_icon]
    have hk : ((([("Version", "1.0"),
        ("Type", "Application"),
        ("Name", s.name),
        ("Comment", pyOrStr s.tagline ""),
        ("Exec", "flatpak run org.learningequality.Kolibri --channel-id " ++ s.id),
        ("X-Endless-LaunchMaximized", "True"),
        ("X-Kolibri-Channel-Id", s.id),
        ("X-Kolibri-Channel-Version", channel_version_db s),
        ("Categories", String.intercalate ";" LAUNCHER_CATEGORIES ++ ";"),
        ("Icon", icon_base_name s.id)] : Items).map fun kv => (kv.1, pyStrip kv.2)).map
        Prod.fst) =
        ["Version", "Type", "Name", "Comment", "Exec", "X-Endless-LaunchMaximized",
         "X-Kolibri-Channel-Id", "X-Kolibri-Channel-Version", "Categories", "Icon"] := rfl
    rw [hk]
    decide

theorem desktopEntryPairs_pct_free (s : ChannelMetadataRec)
    (hidp : '%' ∉ s.id.data) (hnp : '%' ∉ s.name.data)
    (htp : '%' ∉ (pyOrStr s.tagline "").data)
    (hvp : '%' ∉ (channel_version_db s).data) :
    ∀ kv ∈ desktopEntryPairs s (icnOf s), '%' ∉ kv.2.data := by
  have hexec : '%' ∉ ("flatpak run org.learningequality.Kolibri --channel-id " ++ s.id).data := by
    rw [String.data_append]
    intro hm
    rcases List.mem_append.mp hm with hm | hm
    · exact absurd hm (by decide)
    · exact hidp hm
  have hicon : '%' ∉ (icon_base_name s.id).data := by
    rw [icon_base_name, String.data_append]
    intro hm
    rcases List.mem_append.mp hm with hm | hm
    · exact absurd hm (by decide)
    · exact hidp hm
  rcases icnOf_cases s with hie | hie <;> rw [hie]
  · intro kv hkv
    rw [desktopEntryPairs_none] at hkv
    simp only [List.mem_cons, List.not_mem_nil, or_false] at hkv
    rcases hkv with rfl | rfl | rfl | rfl | rfl | rfl | rfl | rfl | rfl
    · exact of_decide_eq_true rfl
    · exact of_decide_eq_true rfl
    · exact hnp
    · exact htp
    · exact hexec
    · exact of_decide_eq_true rfl
    · exact hidp
    · exact hvp
    · exact of_decide_eq_true rfl
  · intro kv hkv
    rw [desktopEntryPairs_some_icon] at hkv
    simp only [List.mem_cons, List.not_mem_nil, or_false] at hkv
    rcases hkv with rfl | rfl | rfl | rfl | rfl | rfl | rfl | rfl | rfl | rfl
    · exact of_decide_eq_true rfl
    · exact of_decide_eq_true rfl
    · exact hnp
    · exact htp
    · exact hexec
    · exact of_decide_eq_true rfl
    · exact hidp
    · exact hvp
    · exact of_decide_eq_true rfl
    · exact hicon

theorem entryOk_of_pct_free (s : ChannelMetadataRec)
    (hidp : '%' ∉ s.id.data) (hnp : '%' ∉ s.name.data)
    (htp : '%' ∉ (pyOrStr s.tagline "").data)
    (hvp : '%' ∉ (channel_version_db s).data) : entryOk s = true := by
  rw [entryOk, set_values_ok, List.all_eq_true]
  intro kv hkv
  exact before_set_ok_of_no_pct (desktopEntryPairs_pct_free s hidp hnp htp hvp kv hkv)

theorem mk_of_written (s : ChannelMetadataRec)
    (hid : '\n' ∉ s.id.data) (hname : '\n' ∉ s.name.data)
    (htag : '\n' ∉ (pyOrStr s.tagline "").data)
    (hver : '\n' ∉ (channel_version_db s).data)
    (hidp : '%' ∉ s.id.data) (hnp : '%' ∉ s.name.data)
    (htp : '%' ∉ (pyOrStr s.tagline "").data)
    (hvp : '%' ∉ (channel_version_db s).data) :
    ∃ items : Items,
      loadFile (desktop_file_name s.id, renderEntry s (icnOf s)) =
        Except.ok (some ⟨desktop_file_name s.id, items⟩) ∧
      mkDiskLauncher (desktop_file_name s.id, renderEntry s (icnOf s)) =
        some ⟨desktop_file_name s.id, items⟩ ∧
      getK "X-Kolibri-Channel-Id" items = some (pyStrip s.id) ∧
      getK "X-Kolibri-Channel-Version" items = some (pyStrip (channel_version_db s)) := by
  have hpi := parse_renderEntry s (icnOf s) (icnOf_cases s) hid hname htag hver
  have hpc : ∀ kv ∈ (desktopEntryPairs s (icnOf s)).map (fun kv => (kv.1, pyStrip kv.2)),
      '%' ∉ kv.2.data := by
    intro kv hkv
    rcases List.mem_map.mp hkv with ⟨kv0, hkv0, rfl⟩
    intro hm
    exact desktopEntryPairs_pct_free s hidp hnp htp hvp kv0 hkv0 (mem_stripChars hm)
  have hload := loadFile_single_section (desktop_file_name s.id) (renderEntry s (icnOf s))
    ((desktopEntryPairs s (icnOf s)).map fun kv => (kv.1, pyStrip kv.2)) hpi
    (desktopEntryPairs_keys_nodup s) hpc
  refine ⟨(desktopEntryPairs s (icnOf s)).map fun kv => (kv.1, pyStrip kv.2),
    hload, mkDiskLauncher_of_loadFile hload, ?_, ?_⟩
  · rcases icnOf_cases s with hie | hie <;> rw [hie]
    · rfl
    · rw [desktopEntryPairs_some_icon]
      rfl
  · rcases icnOf_cases s with hie | hie <;> rw [hie]
    · rfl
    · rw [desktopEntryPairs_some_icon]
      rfl

/-- C4 (amended): reconciliation is idempotent on canonical state. After one
successful pass over a database whose launchers have distinct ids,
parseable versions, clean metadata fields (stripped, newline-free, and
percent-free, so set()'s interpolation validation passes and the written
values read back unchanged through items()), and whose matching files on
disk all sit at the canonical derived path, a second pass with
force=False performs no create, update or delete, leaves every entry and
icon file byte-identical, and does not refresh the icon cache. -/
theorem reconcile_idempotent (db : List ChannelMetadataRec) (dbL : List ChannelMetadataRec)
    (fs0 : FS) (force1 : Bool) (st1 : PassResult)
    (hdb : db.filter (fun m => m.rootAvailable) = dbL)
    (h1 : update_channel_launchers force1 db fs0 = Except.ok st1)
    (hkeys : (fs0.entries.map Prod.fst).Nodup)
    (hids : (dbL.map ChannelMetadataRec.id).Nodup)
    (hver : ∀ s ∈ dbL, (parseVersion (channel_version_db s)).isOk = true)
    (hclean : ∀ s ∈ dbL,
      pyStrip s.id = s.id ∧ '\n' ∉ s.id.data ∧
      pyStrip (channel_version_db s) = channel_version_db s ∧
      '\n' ∉ (channel_version_db s).data ∧
      '\n' ∉ s.name.data ∧ '\n' ∉ (pyOrStr s.tagline "").data ∧
      '%' ∉ s.id.data ∧ '%' ∉ s.name.data ∧
      '%' ∉ (pyOrStr s.tagline "").data ∧ '%' ∉ (channel_version_db s).data)
    (hcanon : ∀ f ∈ fs0.entries, ∀ d : DiskLauncher, mkDiskLauncher f = some d →
      ∀ c : String, d.channel_id = some c → c ∈ dbL.map ChannelMetadataRec.id →
      f.1 = desktop_file_name c) :
    update_channel_launchers false db st1.fs =
      Except.ok ⟨st1.fs, [], false, false, none⟩ := by
  obtain ⟨disk1, r1, r2, hload1, hr1, hr2, hst⟩ := update_ok_inv h1
  rw [hdb] at hr1 hr2
  have hps := load_all_ok_parse hload1
  have hfm : disk1 = fs0.entries.filterMap mkDiskLauncher := by
    have h2 := load_all_filterMap fs0.entries hps
    rw [hload1] at h2
    exact Except.ok.inj h2
  have hnd1 : (disk1.map DiskLauncher.path).Nodup := by
    rw [hfm]
    exact (paths_filterMap_sublist fs0.entries).nodup hkeys
  have hin1 : ∀ d ∈ disk1, hasK d.path fs0.entries = true := by
    intro d hd
    rw [hfm] at hd
    rcases List.mem_filterMap.mp hd with ⟨f, hf, hmk⟩
    rw [mkDiskLauncher_path hmk]
    exact hasK_iff.mpr (List.mem_map_of_mem Prod.fst hf)
  obtain ⟨r1', hr1', _, _, he1⟩ := phase_delete_spec dbL disk1 fs0 hnd1 hin1 hkeys
  rw [hr1] at hr1'
  obtain rfl : r1 = r1' := Except.ok.inj hr1'
  have hall1 := phase_save_ok_forall hr2
  obtain ⟨r2', hr2', _, _, he2⟩ := phase_save_spec disk1 force1 dbL r1.1 hall1
  rw [hr2] at hr2'
  obtain rfl : r2 = r2' := Except.ok.inj hr2'
  have hfs1 : st1.fs = r2.1 := by rw [hst]
  have hE1keys : ((r1.1.entries).map Prod.fst).Nodup := by
    rw [he1]
    exact ((List.filter_sublist _).map _).nodup hkeys
  have hsurv : ∀ f ∈ r1.1.entries, f ∈ fs0.entries := by
    intro f hf
    rw [he1] at hf
    exact List.mem_of_mem_filter hf
  have hid_eq : ∀ s ∈ dbL, ∀ s' ∈ dbL, s.id = s'.id → s = s' :=
    fun s hs s' hs' h => List.inj_on_of_nodup_map hids hs hs' h
  have hEok : ∀ s ∈ dbL, entryOk s = true := by
    intro s hs
    obtain ⟨_, _, _, _, _, _, p1, p2, p3, p4⟩ := hclean s hs
    exact entryOk_of_pct_free s p1 p2 p3 p4
  have he2e : r2.1.entries =
      (dbL.filter fun s => saveDecision disk1 force1 s = some true).foldl
        (fun es s => setKV (desktop_file_name s.id) (renderEntry s (icnOf s)) es)
        r1.1.entries := by
    rw [he2]
    exact foldl_save_entries _ r1.1 fun s hs => hEok s (List.mem_of_mem_filter hs)
  have hwrittenC : ∀ s ∈ dbL,
      ∃ items : Items,
        loadFile (desktop_file_name s.id, renderEntry s (icnOf s)) =
          Except.ok (some ⟨desktop_file_name s.id, items⟩) ∧
        mkDiskLauncher (desktop_file_name s.id, renderEntry s (icnOf s)) =
          some ⟨desktop_file_name s.id, items⟩ ∧
        getK "X-Kolibri-Channel-Id" items = some s.id ∧
        getK "X-Kolibri-Channel-Version" items = some (channel_version_db s) := by
    intro s hs
    obtain ⟨i1, i2, i3, i4, i5, i6, p1, p2, p3, p4⟩ := hclean s hs
    obtain ⟨items, hld, hmk, hgid, hgver⟩ := mk_of_written s i2 i5 i6 i4 p1 p2 p3 p4
    exact ⟨items, hld, hmk, by rw [hgid, i1], by rw [hgver, i3]⟩
  have hmem2 : ∀ f ∈ r2.1.entries,
      (∃ s ∈ dbL.filter (fun t => saveDecision disk1 force1 t = some true),
        f = (desktop_file_name s.id, renderEntry s (icnOf s))) ∨
      (f ∈ r1.1.entries ∧
        ∀ s ∈ dbL.filter (fun t => saveDecision disk1 force1 t = some true),
        f.1 ≠ desktop_file_name s.id) := by
    intro f hf
    rw [he2e] at hf
    exact mem_foldl_setKV _ _ hE1keys hf
  have hparse2 : ∀ f ∈ r2.1.entries, (loadFile f).isOk = true := by
    intro f hf
    rcases hmem2 f hf with ⟨s, hsL, rfl⟩ | ⟨hfb, _⟩
    · have hsdbl := List.mem_of_mem_filter hsL
      obtain ⟨items, hld, _, _, _⟩ := hwrittenC s hsdbl
      rw [hld]
      rfl
    · exact hps f (hsurv f hfb)
  have hload2 : load_all_from_disk r2.1.entries =
      Except.ok (r2.1.entries.filterMap mkDiskLauncher) :=
    load_all_filterMap _ hparse2
  have hF1 : ∀ d2 ∈ r2.1.entries.filterMap mkDiskLauncher,
      launcherMatchesDb dbL d2 = true := by
    intro d2 hd2
    rcases List.mem_filterMap.mp hd2 with ⟨f, hf, hmk⟩
    rcases hmem2 f hf with ⟨s, hsL, rfl⟩ | ⟨hfb, _⟩
    · have hsdbl := List.mem_of_mem_filter hsL
      obtain ⟨items, _, hmk', hgid, _⟩ := hwrittenC s hsdbl
      rw [hmk'] at hmk
      obtain rfl := Option.some.inj hmk
      rw [launcherMatchesDb, List.any_eq_true]
      refine ⟨s, hsdbl, ?_⟩
      have hcid : DiskLauncher.channel_id ⟨desktop_file_name s.id, items⟩ = some s.id := hgid
      simp [is_same_channel, diskView, dbView, hcid]
    · rw [he1] at hfb
      obtain ⟨hf0, hkeep⟩ := List.mem_filter.mp hfb
      simp only [Bool.not_eq_true'] at hkeep
      by_contra hnm
      rw [Bool.not_eq_true] at hnm
      have hd1 : d2 ∈ disk1 := by
        rw [hfm]
        exact List.mem_filterMap.mpr ⟨f, hf0, hmk⟩
      have hany : (disk1.any fun d => !launcherMatchesDb dbL d && d.path = f.1) = true := by
        rw [List.any_eq_true]
        refine ⟨d2, hd1, ?_⟩
        rw [hnm, mkDiskLauncher_path hmk]
        simp
      have hff : (false : Bool) = true := hkeep ▸ hany
      simp at hff
  have hmatchfacts : ∀ s ∈ dbL, ∀ d2 ∈ r2.1.entries.filterMap mkDiskLauncher,
      is_same_channel (dbView s) (diskView d2) = true →
      ((parseVersion (channel_version_db s)).isOk = true ∧
        (parseVersionOpt d2.channel_version).isOk = true) ∧
      needsUpdateB s d2 = false := by
    intro s hsdbl d2 hd2 hsame
    have hcid2 : d2.channel_id = some s.id := by
      have h := hsame
      simp only [is_same_channel, dbView, diskView, decide_eq_true_eq] at h
      exact h.symm
    rcases List.mem_filterMap.mp hd2 with ⟨f, hf, hmk⟩
    rcases hmem2 f hf with ⟨t, htL, rfl⟩ | ⟨hfb, hfk⟩
    · have htdbl := List.mem_of_mem_filter htL
      obtain ⟨items, _, hmk', hgid, hgver⟩ := hwrittenC t htdbl
      rw [hmk'] at hmk
      obtain rfl := Option.some.inj hmk
      have hcid2' : getK "X-Kolibri-Channel-Id" items = some s.id := hcid2
      rw [hgid] at hcid2'
      obtain rfl : t = s := hid_eq t htdbl s hsdbl (Option.some.inj hcid2')
      have hcv : DiskLauncher.channel_version ⟨desktop_file_name t.id, items⟩ =
          some (channel_version_db t) := hgver
      obtain ⟨p, hp⟩ := except_ok_exists (hver t htdbl)
      have hpv : parseVersionOpt (some (channel_version_db t)) = Except.ok p := hp
      constructor
      · refine ⟨hver t htdbl, ?_⟩
        rw [hcv, hpv]
        rfl
      · delta needsUpdateB
        rw [hcv, hpv, hp]
        show (is_same_channel (dbView t) (diskView ⟨desktop_file_name t.id, items⟩) &&
          decide (pyOrInt (p.1 - p.1) (p.2 - p.2) ≠ 0)) = false
        simp [pyOrInt]
    · have hf0 : f ∈ fs0.entries := hsurv f hfb
      have hd2disk1 : d2 ∈ disk1 := by
        rw [hfm]
        exact List.mem_filterMap.mpr ⟨f, hf0, hmk⟩
      have hpathf : f.1 = desktop_file_name s.id :=
        hcanon f hf0 d2 hmk s.id hcid2 (List.mem_map_of_mem _ hsdbl)
      have hnotsaved : saveDecision disk1 force1 s ≠ some true := by
        intro hts
        exact hfk s (List.mem_filter.mpr ⟨hsdbl, by simp [hts]⟩) hpathf
      have hsd : saveDecision disk1 force1 s = some false := by
        cases hsd0 : saveDecision disk1 force1 s with
        | none => exact absurd hsd0 (hall1 s hsdbl)
        | some b =>
          cases b with
          | true => exact absurd hsd0 hnotsaved
          | false => rfl
      obtain ⟨_, _, hac⟩ := saveDecision_false_elim hsd
      have hforall := anyCompare_false_forall hac
      have hcideq : (dbView s).cid = (diskView d2).cid := by
        simp [dbView, diskView, hcid2]
      obtain ⟨p, q, hp, hq, hz⟩ :=
        hforall (diskView d2) (List.mem_map_of_mem diskView hd2disk1) hcideq
      have hp' : parseVersion (channel_version_db s) = Except.ok p := hp
      have hq' : parseVersionOpt d2.channel_version = Except.ok q := hq
      constructor
      · exact ⟨hver s hsdbl, by rw [hq']; rfl⟩
      · delta needsUpdateB
        rw [hp', hq']
        show (is_same_channel (dbView s) (diskView d2) &&
          decide (pyOrInt (p.1 - q.1) (p.2 - q.2) ≠ 0)) = false
        rw [hz]
        simp
  have hF3 : ∀ s ∈ dbL,
      anyCompare (dbView s) ((r2.1.entries.filterMap mkDiskLauncher).map diskView) =
        Except.ok false := by
    intro s hsdbl
    have hp : ∀ d ∈ r2.1.entries.filterMap mkDiskLauncher,
        is_same_channel (dbView s) (diskView d) = true →
        (parseVersion (channel_version_db s)).isOk = true ∧
          (parseVersionOpt d.channel_version).isOk = true :=
      fun d hd hs => (hmatchfacts s hsdbl d hd hs).1
    rw [anyCompare_eq_any s _ hp]
    have hany0 : ((r2.1.entries.filterMap mkDiskLauncher).any (needsUpdateB s)) = false := by
      rw [List.any_eq_false]
      intro d2 hd2
      intro hupd
      have hsame : is_same_channel (dbView s) (diskView d2) = true := by
        delta needsUpdateB at hupd
        exact (Bool.and_eq_true _ _).mp hupd |>.1
      have := (hmatchfacts s hsdbl d2 hd2 hsame).2
      rw [this] at hupd
      simp at hupd
    rw [hany0]
  have hF2 : ∀ s ∈ dbL, dbHasMatch (r2.1.entries.filterMap mkDiskLauncher) s = true := by
    intro s hsdbl
    cases hsd : saveDecision disk1 force1 s with
    | none => exact absurd hsd (hall1 s hsdbl)
    | some b =>
      cases b with
      | true =>
        have hsL : s ∈ dbL.filter (fun t => saveDecision disk1 force1 t = some true) :=
          List.mem_filter.mpr ⟨hsdbl, by simp [hsd]⟩
        have hidsub : ((dbL.filter fun t => saveDecision disk1 force1 t = some true).map
            ChannelMetadataRec.id).Nodup :=
          (((List.filter_sublist _)).map _).nodup hids
        have hfnd : ((dbL.filter fun t => saveDecision disk1 force1 t = some true).map
            fun t => desktop_file_name t.id).Nodup := by
          rw [show (fun t : ChannelMetadataRec => desktop_file_name t.id) =
            desktop_file_name ∘ ChannelMetadataRec.id from rfl, ← List.map_map]
          exact hidsub.map fun a b h => desktop_file_name_inj h
        have hget : getK (desktop_file_name s.id) r2.1.entries =
            some (renderEntry s (icnOf s)) := by
          rw [he2e]
          exact getK_foldl_of_mem _ _ hfnd hsL
        have hpair := getK_mem hget
        obtain ⟨items, _, hmk', hgid, _⟩ := hwrittenC s hsdbl
        rw [dbHasMatch, List.any_eq_true]
        refine ⟨⟨desktop_file_name s.id, items⟩,
          List.mem_filterMap.mpr ⟨_, hpair, hmk'⟩, ?_⟩
        have hcid : DiskLauncher.channel_id ⟨desktop_file_name s.id, items⟩ = some s.id := hgid
        simp [is_same_channel, diskView, dbView, hcid]
      | false =>
        obtain ⟨hm1, _, _⟩ := saveDecision_false_elim hsd
        rw [dbHasMatch, List.any_eq_true] at hm1
        obtain ⟨d1, hd1, hsame⟩ := hm1
        have hcid1 : d1.channel_id = some s.id := by
          have h := hsame
          simp only [is_same_channel, dbView, diskView, decide_eq_true_eq] at h
          exact h.symm
        rw [hfm] at hd1
        obtain ⟨f1, hf10, hmk1⟩ := List.mem_filterMap.mp hd1
        have hpath1 : f1.1 = desktop_file_name s.id :=
          hcanon f1 hf10 d1 hmk1 s.id hcid1 (List.mem_map_of_mem _ hsdbl)
        have hkeep1 : f1 ∈ r1.1.entries := by
          rw [he1]
          refine List.mem_filter.mpr ⟨hf10, ?_⟩
          simp only [Bool.not_eq_true']
          rw [List.any_eq_false]
          intro d hd
          by_cases hdp : d.path = f1.1
          · rw [hfm] at hd
            obtain ⟨f', hf', hmk'⟩ := List.mem_filterMap.mp hd
            have hfeq : f' = f1 := nodup_keys_mem_eq hkeys hf' hf10
              (by rw [← mkDiskLauncher_path hmk']; exact hdp)
            subst hfeq
            have hdd : d = d1 := by
              rw [hmk'] at hmk1
              exact Option.some.inj hmk1
            subst hdd
            have hmatch : launcherMatchesDb dbL d = true := by
              rw [launcherMatchesDb, List.any_eq_true]
              refine ⟨s, hsdbl, ?_⟩
              simp [is_same_channel, diskView, dbView, hcid1]
            rw [hmatch]
            simp
          · simp [hdp]
        have hnw : ∀ t ∈ dbL.filter (fun t => saveDecision disk1 force1 t = some true),
            f1.1 ≠ desktop_file_name t.id := by
          intro t htL hcontra
          have htdbl := List.mem_of_mem_filter htL
          obtain rfl : s = t :=
            hid_eq s hsdbl t htdbl (desktop_file_name_inj (hpath1 ▸ hcontra))
          have hts : saveDecision disk1 force1 s = some true := by
            have h := (List.mem_filter.mp htL).2
            exact of_decide_eq_true h
          rw [hsd] at hts
          simp at hts
        have hmem1 : f1 ∈ r2.1.entries := by
          rw [he2e]
          exact mem_foldl_of_mem_base _ _ hkeep1 hnw
        rw [dbHasMatch, List.any_eq_true]
        exact ⟨d1, List.mem_filterMap.mpr ⟨f1, hmem1, hmk1⟩, hsame⟩
  have hdisk2 : load_all_from_disk st1.fs.entries =
      Except.ok (r2.1.entries.filterMap mkDiskLauncher) := by
    rw [hfs1]
    exact hload2
  have hnoop1 : phase_delete (db.filter fun m => m.rootAvailable)
      (r2.1.entries.filterMap mkDiskLauncher) st1.fs =
      Except.ok (st1.fs, [], false) := by
    rw [hdb]
    exact phase_delete_noop dbL _ st1.fs hF1
  have hnoop2 : phase_save (r2.1.entries.filterMap mkDiskLauncher) false
      (db.filter fun m => m.rootAvailable) st1.fs =
      Except.ok (st1.fs, [], false) := by
    rw [hdb]
    exact phase_save_noop _ dbL st1.fs (fun s hs => ⟨hF2 s hs, hF3 s hs⟩)
  exact update_eq_ok hdisk2 hnoop1 hnoop2

/-- Counterexample to the literal idempotence claim: the database version
"2~5" parses as two integer components, and the first pass succeeds, yet a
second pass with force=False still performs an update (and flags the icon
cache) because the matching file sits at a non-canonical path that save
never overwrites. -/
theorem reconcile_second_pass_changes_on_noncanonical_path :
    (parseVersion (channel_version_db ⟨"a", "2", "Chan A", none, "", true⟩)).isOk = true ∧
    ((update_channel_launchers false [⟨"a", "2", "Chan A", none, "", true⟩]
        ⟨[("foo.desktop",
           "[Desktop Entry]\nX-Kolibri-Channel-Id=a\nX-Kolibri-Channel-Version=1~5\n")],
         []⟩).bind
      (fun st1 => update_channel_launchers false [⟨"a", "2", "Chan A", none, "", true⟩]
        st1.fs)).toOption.map
      (fun st2 => (st2.did_icons_change, st2.actions.isEmpty)) = some (true, false) := by
  constructor
  · decide
  · decide

theorem reconcile_idempotent_witness :
    update_channel_launchers false
        [⟨"a", "1", "Chan", none, "data:image/png;base64,AA", true⟩] ⟨[], []⟩ =
      Except.ok
        ⟨⟨[(desktop_file_name "a",
            renderEntry ⟨"a", "1", "Chan", none, "data:image/png;base64,AA", true⟩
              (icnOf ⟨"a", "1", "Chan", none, "data:image/png;base64,AA", true⟩))],
          [(icon_base_name "a" ++ ChannelIcon_file_extension, ⟨"image/png", "AA"⟩)]⟩,
         [PassAction.created ⟨"a", "1", "Chan", none, "data:image/png;base64,AA", true⟩],
         true, true, none⟩ ∧
    update_channel_launchers false
        [⟨"a", "1", "Chan", none, "data:image/png;base64,AA", true⟩]
        (PassResult.fs
          ⟨⟨[(desktop_file_name "a",
              renderEntry ⟨"a", "1", "Chan", none, "data:image/png;base64,AA", true⟩
                (icnOf ⟨"a", "1", "Chan", none, "data:image/png;base64,AA", true⟩))],
            [(icon_base_name "a" ++ ChannelIcon_file_extension, ⟨"image/png", "AA"⟩)]⟩,
           [PassAction.created ⟨"a", "1", "Chan", none, "data:image/png;base64,AA", true⟩],
           true, true, none⟩) =
      Except.ok
        ⟨⟨[(desktop_file_name "a",
            renderEntry ⟨"a", "1", "Chan", none, "data:image/png;base64,AA", true⟩
              (icnOf ⟨"a", "1", "Chan", none, "data:image/png;base64,AA", true⟩))],
          [(icon_base_name "a" ++ ChannelIcon_file_extension, ⟨"image/png", "AA"⟩)]⟩,
         [], false, false, none⟩ := by
  have h1 : update_channel_launchers false
      [⟨"a", "1", "Chan", none, "data:image/png;base64,AA", true⟩] ⟨[], []⟩ =
      Except.ok
        ⟨⟨[(desktop_file_name "a",
            renderEntry ⟨"a", "1", "Chan", none, "data:image/png;base64,AA", true⟩
              (icnOf ⟨"a", "1", "Chan", none, "data:image/png;base64,AA", true⟩))],
          [(icon_base_name "a" ++ ChannelIcon_file_extension, ⟨"image/png", "AA"⟩)]⟩,
         [PassAction.created ⟨"a", "1", "Chan", none, "data:image/png;base64,AA", true⟩],
         true, true, none⟩ := by
    have hd : ((update_channel_launchers false
        [⟨"a", "1", "Chan", none, "data:image/png;base64,AA", true⟩] ⟨[], []⟩).toOption =
        some
          ⟨⟨[(desktop_file_name "a",
              renderEntry ⟨"a", "1", "Chan", none, "data:image/png;base64,AA", true⟩
                (icnOf ⟨"a", "1", "Chan", none, "data:image/png;base64,AA", true⟩))],
            [(icon_base_name "a" ++ ChannelIcon_file_extension, ⟨"image/png", "AA"⟩)]⟩,
           [PassAction.created ⟨"a", "1", "Chan", none, "data:image/png;base64,AA", true⟩],
           true, true, none⟩) := by
      set_option maxRecDepth 4000 in decide
    cases hu : update_channel_launchers false
        [⟨"a", "1", "Chan", none, "data:image/png;base64,AA", true⟩] ⟨[], []⟩ with
    | error e =>
      rw [hu] at hd
      simp [Except.toOption] at hd
    | ok st =>
      rw [hu] at hd
      simp only [Except.toOption, Option.some.injEq] at hd
      rw [hd]
  refine ⟨h1, ?_⟩
  exact reconcile_idempotent
    [⟨"a", "1", "Chan", none, "data:image/png;base64,AA", true⟩]
    [⟨"a", "1", "Chan", none, "data:image/png;base64,AA", true⟩]
    ⟨[], []⟩ false _ rfl h1 (by decide) (by decide) (by decide) (by decide)
    (by intro f hf; simp at hf)
